import Mathlib

/-!
Verification of the metadata aggregation core of the terex-movie repository.

The model is a shallow embedding of:
  * the MovieMetadata data model (src/types/metadata),
  * MetadataService.mergeMetadata, sanitizeMetadata, _initialize,
    getMovieMetadata, searchMovies, searchMoviesWithUpcoming and
    getEnhancedMetadata (src/lib/metadata/tmpdb-adapter.ts, second unit:
    the MetadataService class),
  * OMDBAdapter.searchMovies / getMovieMetadata (src/unnamed/part_000).

JavaScript optional values are modeled by JVal: a field can be undefined
(absent or explicitly undefined), null, or a proper value.  JavaScript
numbers appearing in sanitized fields are modeled by JNum, which separates
NaN from ordinary rationals.  Network and provider behavior is abstracted
into an environment of per-adapter outcomes; a thrown exception is an
Except.error, which the model propagates or swallows exactly where the
source has try/catch blocks.
-/

/-- A JavaScript field value: undefined, null, or a proper value. -/
inductive JVal (α : Type) where
  | undef : JVal α
  | null : JVal α
  | val : α → JVal α
deriving DecidableEq, Repr

/-- A JavaScript number as observed by the sanitizer: NaN or a rational. -/
inductive JNum where
  | nan : JNum
  | num : ℚ → JNum
deriving DecidableEq, Repr

/-- JS strict equality on string-or-undefined-or-null values (the
comparisons target.source !== source.source in mergeMetadata). -/
def jvalEq {α : Type} [BEq α] : JVal α → JVal α → Bool
  | JVal.undef, JVal.undef => true
  | JVal.null, JVal.null => true
  | JVal.val a, JVal.val b => a == b
  | _, _ => false

/-- JS template-literal stringification of a string-or-undefined-or-null
value, as in the backquoted target.source, source.source concatenation. -/
def jstr : JVal String → String
  | JVal.undef => "undefined"
  | JVal.null => "null"
  | JVal.val s => s

/-- The emptiness test of the generic merge loop for non-array fields:
target[k] === undefined || target[k] === null. -/
def JVal.isEmptyS {α : Type} : JVal α → Bool
  | JVal.undef => true
  | JVal.null => true
  | JVal.val _ => false

/-- The emptiness test of the generic merge loop for array fields:
undefined, null, or an empty array. -/
def JVal.isEmptyA {α : Type} : JVal (List α) → Bool
  | JVal.undef => true
  | JVal.null => true
  | JVal.val l => l.isEmpty

/-- One step of the generic fill-if-empty loop for a non-array field:
if (target[k] === undefined || target[k] === null) target[k] = source[k]. -/
def fillS {α : Type} (t s : JVal α) : JVal α :=
  if t.isEmptyS then s else t

/-- One step of the generic fill-if-empty loop for an array field
(the Array.isArray branch of the condition also admits empty arrays). -/
def fillA {α : Type} (t s : JVal (List α)) : JVal (List α) :=
  if t.isEmptyA then s else t

/-- src/types/metadata ExternalIds.  A key is modeled as present (some)
or absent (none); imdb, omdb, wikidata, movieLens are strings, tmdb a
number. -/
structure ExternalIds where
  imdb : Option String := none
  tmdb : Option Int := none
  omdb : Option String := none
  wikidata : Option String := none
  movieLens : Option String := none
deriving DecidableEq, Repr

/-- JS object spread { ...a, ...b }: a key present in b overrides the
one in a; keys only in a survive. -/
def spreadExt (a b : ExternalIds) : ExternalIds :=
  { imdb := match b.imdb with | some v => some v | none => a.imdb
    tmdb := match b.tmdb with | some v => some v | none => a.tmdb
    omdb := match b.omdb with | some v => some v | none => a.omdb
    wikidata := match b.wikidata with | some v => some v | none => a.wikidata
    movieLens := match b.movieLens with | some v => some v | none => a.movieLens }

/-- Spreading a possibly undefined or null externalIds object:
{ ...undefined } and { ...null } contribute nothing. -/
def extOrEmpty : JVal ExternalIds → ExternalIds
  | JVal.val e => e
  | _ => {}

/-- src/types/metadata CastMember. -/
structure CastMember where
  id : String
  name : String
  character : Option String := none
  profileUrl : Option String := none
deriving DecidableEq, Repr

/-- src/types/metadata CrewMember. -/
structure CrewMember where
  id : String
  name : String
  job : Option String := none
  department : Option String := none
  profileUrl : Option String := none
deriving DecidableEq, Repr

/-- src/types/metadata VideoInfo. -/
structure VideoInfo where
  id : String
  key : String
  site : String
  type : String
  name : String
  size : Option Int := none
  official : Option Bool := none
  publishedAt : Option String := none
deriving DecidableEq, Repr

/-- src/types/metadata BasicMovieInfo. -/
structure BasicMovieInfo where
  id : String
  title : String
  posterUrl : JVal String := JVal.undef
  releaseDate : JVal String := JVal.undef
  rating : JVal JNum := JVal.undef
  mediaType : JVal String := JVal.undef
deriving DecidableEq, Repr

/-- src/types/metadata MovieMetadata.  id and title are required in the
TypeScript interface, all other fields are optional. -/
structure MovieMetadata where
  id : String
  title : String
  originalTitle : JVal String := JVal.undef
  overview : JVal String := JVal.undef
  tagline : JVal String := JVal.undef
  posterUrl : JVal String := JVal.undef
  backdropUrl : JVal String := JVal.undef
  releaseDate : JVal String := JVal.undef
  runtime : JVal JNum := JVal.undef
  genres : JVal (List String) := JVal.undef
  rating : JVal JNum := JVal.undef
  voteCount : JVal JNum := JVal.undef
  director : JVal String := JVal.undef
  writers : JVal (List String) := JVal.undef
  cast : JVal (List CastMember) := JVal.undef
  crew : JVal (List CrewMember) := JVal.undef
  productionCompanies : JVal (List String) := JVal.undef
  budget : JVal JNum := JVal.undef
  revenue : JVal JNum := JVal.undef
  languages : JVal (List String) := JVal.undef
  keywords : JVal (List String) := JVal.undef
  videos : JVal (List VideoInfo) := JVal.undef
  similar : JVal (List BasicMovieInfo) := JVal.undef
  externalIds : JVal ExternalIds := JVal.undef
  source : JVal String := JVal.undef
deriving DecidableEq, Repr

/-- The append-if-key-absent union of the special merge handlers.  The
set of existing keys is computed once from the target before the forEach,
so elements of the source are tested against the original target only. -/
def unionBy {α : Type} (key : α → String) (t s : List α) : List α :=
  t ++ s.filter (fun v => t.all (fun w => key w != key v))

/-- The shared shape of the five special collection handlers in
mergeMetadata: if (source.f && source.f.length > 0) then either copy
([...source.f]) when the target field is undefined or null, or append
source elements whose key is not among the target elements. -/
def unionSpecial {α : Type} (key : α → String) (tgt src : JVal (List α)) :
    JVal (List α) :=
  match src with
  | JVal.val sv =>
    if 0 < sv.length then
      match tgt with
      | JVal.val tv => JVal.val (unionBy key tv sv)
      | _ => JVal.val sv
    else tgt
  | _ => tgt

/-- JS String.prototype.toLowerCase, restricted to the character-wise
lowering relevant here (kernel-reducible, unlike String.toLower). -/
def lcString (s : String) : String := String.mk (s.data.map Char.toLower)

/-- Key used by the cast handler: c.name.toLowerCase(). -/
def castKey (c : CastMember) : String := lcString c.name

/-- Key used by the crew handler: name.toLowerCase() plus a dash plus
job?.toLowerCase() || "". -/
def crewKey (c : CrewMember) : String :=
  lcString c.name ++ "-" ++ (match c.job with | some j => lcString j | none => "")

/-- Key used by the genres handler: g.toLowerCase(). -/
def genreKey (g : String) : String := lcString g

/-- Key used by the videos handler: v.key. -/
def videoKey (v : VideoInfo) : String := v.key

/-- Key used by the similar handler: m.id. -/
def similarKey (m : BasicMovieInfo) : String := m.id

/-- The generic Object.keys(source) loop of mergeMetadata: every field
whose target value is undefined, null, or an empty array receives the
source value.  id and title are required strings in the interface, so
the undefined/null/empty-array condition never holds for them. -/
def mergeFill (t s : MovieMetadata) : MovieMetadata :=
  { id := t.id
    title := t.title
    originalTitle := fillS t.originalTitle s.originalTitle
    overview := fillS t.overview s.overview
    tagline := fillS t.tagline s.tagline
    posterUrl := fillS t.posterUrl s.posterUrl
    backdropUrl := fillS t.backdropUrl s.backdropUrl
    releaseDate := fillS t.releaseDate s.releaseDate
    runtime := fillS t.runtime s.runtime
    genres := fillA t.genres s.genres
    rating := fillS t.rating s.rating
    voteCount := fillS t.voteCount s.voteCount
    director := fillS t.director s.director
    writers := fillA t.writers s.writers
    cast := fillA t.cast s.cast
    crew := fillA t.crew s.crew
    productionCompanies := fillA t.productionCompanies s.productionCompanies
    budget := fillS t.budget s.budget
    revenue := fillS t.revenue s.revenue
    languages := fillA t.languages s.languages
    keywords := fillA t.keywords s.keywords
    videos := fillA t.videos s.videos
    similar := fillA t.similar s.similar
    externalIds := fillS t.externalIds s.externalIds
    source := fillS t.source s.source }

/-- The externalIds special handler: if (source.externalIds)
target.externalIds = { ...target.externalIds, ...source.externalIds }.
An undefined or null source.externalIds is falsy and skipped. -/
def mergeExtVal (t s : JVal ExternalIds) : JVal ExternalIds :=
  match s with
  | JVal.val se => JVal.val (spreadExt (extOrEmpty t) se)
  | _ => t

/-- The source-tag update at the end of mergeMetadata: when the two
source fields differ under strict equality, the target gets the
comma-joined concatenation (template literal semantics). -/
def mergeSourceTag (t s : JVal String) : JVal String :=
  if jvalEq t s then t else JVal.val (jstr t ++ ", " ++ jstr s)

/-- MetadataService.mergeMetadata (tmpdb-adapter.ts, MetadataService
unit): the generic fill-if-empty loop, then the special handlers for
externalIds, videos, cast, crew, genres, similar, then the source tag. -/
def mergeMetadata (target source : MovieMetadata) : MovieMetadata :=
  let t1 := mergeFill target source
  let t2 := { t1 with externalIds := mergeExtVal t1.externalIds source.externalIds }
  let t3 := { t2 with videos := unionSpecial videoKey t2.videos source.videos }
  let t4 := { t3 with cast := unionSpecial castKey t3.cast source.cast }
  let t5 := { t4 with crew := unionSpecial crewKey t4.crew source.crew }
  let t6 := { t5 with genres := unionSpecial genreKey t5.genres source.genres }
  let t7 := { t6 with similar := unionSpecial similarKey t6.similar source.similar }
  { t7 with source := mergeSourceTag t7.source source.source }

/-- Sanitization of one numeric field:
if (x !== undefined && (isNaN(x) || x === null)) x = 0.
Note that the global isNaN(null) is false in JavaScript, so a null field
is caught by the second disjunct. -/
def sanitizeNum : JVal JNum → JVal JNum
  | JVal.undef => JVal.undef
  | JVal.null => JVal.val (JNum.num 0)
  | JVal.val JNum.nan => JVal.val (JNum.num 0)
  | JVal.val (JNum.num q) => JVal.val (JNum.num q)

/-- Sanitization of one collection field: if (!x) x = [], where both
undefined and null are falsy and an array (even empty) is truthy. -/
def sanitizeArr {α : Type} : JVal (List α) → JVal (List α)
  | JVal.undef => JVal.val []
  | JVal.null => JVal.val []
  | JVal.val l => JVal.val l

/-- The shallow copy built by sanitizeMetadata for a non-null record:
the five numeric fields and nine collection fields are normalized, every
other field is carried over unchanged. -/
def sanitizeRec (m : MovieMetadata) : MovieMetadata :=
  { m with
    rating := sanitizeNum m.rating
    runtime := sanitizeNum m.runtime
    voteCount := sanitizeNum m.voteCount
    budget := sanitizeNum m.budget
    revenue := sanitizeNum m.revenue
    genres := sanitizeArr m.genres
    writers := sanitizeArr m.writers
    cast := sanitizeArr m.cast
    crew := sanitizeArr m.crew
    videos := sanitizeArr m.videos
    similar := sanitizeArr m.similar
    languages := sanitizeArr m.languages
    keywords := sanitizeArr m.keywords
    productionCompanies := sanitizeArr m.productionCompanies }

/-- MetadataService.sanitizeMetadata: null passes through; otherwise the
shallow normalized copy. -/
def sanitizeMetadata : Option MovieMetadata → Option MovieMetadata
  | none => none
  | some m => some (sanitizeRec m)

example :
    mergeMetadata { id := "a", title := "A", rating := JVal.undef }
      { id := "b", title := "B", rating := JVal.val (JNum.num 7) } =
    { id := "a", title := "A", rating := JVal.val (JNum.num 7),
      externalIds := JVal.undef } := by
  decide

example :
    (mergeMetadata
      { id := "a", title := "A", genres := JVal.val ["Action"] }
      { id := "b", title := "B", genres := JVal.val ["Drama", "action"] }).genres =
    JVal.val ["Action", "Drama"] := by
  decide

/-! ## The Orchestrator (MetadataService) -/

/-- Registry entry: an adapter name and its fixed numeric priority. -/
structure AdapterSpec where
  name : String
  priority : Int
deriving DecidableEq, Repr

/-- The constructor of MetadataService registers CustomDB, TMDB, OMDB,
MovieLens, TMPDB, YouTube, Wikidata, OpenMedia and sorts by ascending
priority; the registration order already is the sorted order
(priorities 0..7). -/
def registry : List AdapterSpec :=
  [ { name := "CustomDB", priority := 0 },
    { name := "TMDB", priority := 1 },
    { name := "OMDB", priority := 2 },
    { name := "MovieLens", priority := 3 },
    { name := "TMPDB", priority := 4 },
    { name := "YouTube", priority := 5 },
    { name := "Wikidata", priority := 6 },
    { name := "OpenMedia", priority := 7 } ]

/-- A fetch identifier is a string or a number (id: string | number). -/
inductive JsId where
  | str : String → JsId
  | num : Int → JsId
deriving DecidableEq, Repr

/-- src/types/metadata MetadataFetchOptions. -/
structure MetadataFetchOptions where
  includeVideos : Option Bool := none
  includeCast : Option Bool := none
  includeCrew : Option Bool := none
  includeSimilar : Option Bool := none
  language : Option String := none
deriving DecidableEq, Repr

/-- Abstract runtime behavior of the adapters, indexed by adapter name.
An Except.error models a thrown exception at that call; Except.ok models
normal completion.  upcoming is the result of TMDBAdapter
getUpcomingMovies. -/
structure Env where
  probe : String → Except Unit Bool
  fetch : String → JsId → MetadataFetchOptions → Except Unit (Option MovieMetadata)
  search : String → String → Except Unit (List BasicMovieInfo)
  upcoming : Except Unit (List BasicMovieInfo)

/-- MetadataService initialize: the availability probe round.  Every
probe runs inside a try/catch that converts a thrown exception into
isAvailable = false, so the Promise.allSettled filter keeps exactly the
adapters whose probe completed with true.  Then the ensureSources loop
walks ["TMDB", "CustomDB"] in that order and pushes each missing one at
the END of availableSources. -/
def availableAfterInit (probe : String → Except Unit Bool) : List AdapterSpec :=
  let checked := registry.filter (fun a =>
    match probe a.name with
    | Except.ok true => true
    | _ => false)
  let e1 :=
    if checked.any (fun a => a.name == "TMDB") then checked
    else
      match registry.find? (fun a => a.name == "TMDB") with
      | some a => checked ++ [a]
      | none => checked
  if e1.any (fun a => a.name == "CustomDB") then e1
  else
    match registry.find? (fun a => a.name == "CustomDB") with
    | some a => e1 ++ [a]
    | none => e1

/-- The fetch loop of getMovieMetadata: try each available source in
list order; a null result or a thrown exception (caught per iteration,
only collected for logging) moves on to the next source; the first
non-null result stops the loop. -/
def fetchFirst (env : Env) (id : JsId) (opts : MetadataFetchOptions) :
    List AdapterSpec → Option MovieMetadata
  | [] => none
  | a :: rest =>
    match env.fetch a.name id opts with
    | Except.ok (some r) => some r
    | _ => fetchFirst env id opts rest

/-- MetadataService.getMovieMetadata: after initialization, return null
when no source is available, otherwise sanitize the first result of the
fetch loop (null when every source failed or returned null). -/
def getMovieMetadataE (env : Env) (id : JsId) (opts : MetadataFetchOptions) :
    Except Unit (Option MovieMetadata) :=
  let avail := availableAfterInit env.probe
  if avail.isEmpty then Except.ok none
  else Except.ok (sanitizeMetadata (fetchFirst env id opts avail))

/-- The search loop of searchMovies: the primary source and the fallback
loop have identical per-source behavior (try, return on a non-empty
result, catch and continue), so both are the same recursion. -/
def searchFirst (env : Env) (q : String) : List AdapterSpec → List BasicMovieInfo
  | [] => []
  | a :: rest =>
    match env.search a.name q with
    | Except.ok l => if 0 < l.length then l else searchFirst env q rest
    | Except.error _ => searchFirst env q rest

/-- MetadataService.searchMovies. -/
def searchMoviesE (env : Env) (q : String) : Except Unit (List BasicMovieInfo) :=
  let avail := availableAfterInit env.probe
  if avail.isEmpty then Except.ok []
  else Except.ok (searchFirst env q avail)

/-- JS String.prototype.includes as used for the upcoming-title match. -/
def strContains (s pat : String) : Bool :=
  (List.range (s.data.length + 1)).any (fun i => pat.data.isPrefixOf (s.data.drop i))

/-- JS String.prototype.trim (whitespace stripping on both ends). -/
def jsTrim (s : String) : String :=
  String.mk (((s.data.dropWhile Char.isWhitespace).reverse.dropWhile
    Char.isWhitespace).reverse)

/-- MetadataService.searchMoviesWithUpcoming: regular search first; when
it found at least 5 results or the trimmed query is shorter than 3
characters, return it; otherwise look up the adapter named TMDB (which
defines getUpcomingMovies, so the capability test passes), filter its
upcoming list by case-insensitive title containment of the query,
drop entries whose id is among the regular results, and append.  A
thrown exception in the upcoming block is caught and the regular results
are returned. -/
def searchMoviesWithUpcomingE (env : Env) (q : String) :
    Except Unit (List BasicMovieInfo) :=
  let avail := availableAfterInit env.probe
  if avail.isEmpty then Except.ok []
  else
    let rs := searchFirst env q avail
    if 5 ≤ rs.length ∨ (jsTrim q).length < 3 then Except.ok rs
    else
      match avail.find? (fun a => a.name == "TMDB") with
      | some _ =>
        (match env.upcoming with
         | Except.ok ups =>
           let matching := ups.filter (fun m => strContains (lcString m.title) (lcString q))
           let existingIds := rs.map (fun m => m.id)
           let uniqueUpcoming := matching.filter (fun m => !(existingIds.contains m.id))
           Except.ok (rs ++ uniqueUpcoming)
         | Except.error _ => Except.ok rs)
      | none => Except.ok rs

/-- Truthiness of an optional string property (empty string is falsy). -/
def truthyStr : Option String → Bool
  | some s => s != ""
  | none => false

/-- Truthiness of an optional numeric property (zero is falsy). -/
def truthyInt : Option Int → Bool
  | some n => n != 0
  | none => false

/-- The cross-reference identifier chosen in getEnhancedMetadata for one
secondary source: when the primary record has externalIds (a truthy
object) the chain of name checks picks the matching provider id if that
id is itself truthy, else the original input id is reused. -/
def crossRefId (a : AdapterSpec) (primary : MovieMetadata) (id : JsId) : JsId :=
  match primary.externalIds with
  | JVal.val e =>
    if a.name == "OMDB" && truthyStr e.imdb then JsId.str (e.imdb.getD "")
    else if a.name == "TMDB" && truthyInt e.tmdb then JsId.num (e.tmdb.getD 0)
    else if a.name == "Wikidata" && truthyStr e.wikidata then JsId.str (e.wikidata.getD "")
    else if a.name == "MovieLens" && truthyStr e.movieLens then JsId.str (e.movieLens.getD "")
    else id
  | _ => id

/-- The enhancement loop of getEnhancedMetadata: each secondary source
is fetched with its cross-reference id; a non-null result is merged into
the accumulating record; a null result or a thrown exception (caught per
iteration) is skipped. -/
def enhanceLoop (env : Env) (id : JsId) (opts : MetadataFetchOptions)
    (primary : MovieMetadata) : List AdapterSpec → MovieMetadata → MovieMetadata
  | [], acc => acc
  | a :: rest, acc =>
    match env.fetch a.name (crossRefId a primary id) opts with
    | Except.ok (some sec) => enhanceLoop env id opts primary rest (mergeMetadata acc sec)
    | _ => enhanceLoop env id opts primary rest acc

/-- MetadataService.getEnhancedMetadata: primary result from
getMovieMetadata (null propagates); secondary sources are the available
sources whose name differs (strict string inequality) from the primary
record source field; the shallow copy { ...primaryMetadata } seeds the
loop; the merged record is sanitized. -/
def getEnhancedMetadataE (env : Env) (id : JsId) (opts : MetadataFetchOptions) :
    Except Unit (Option MovieMetadata) := do
  let primaryOpt ← getMovieMetadataE env id opts
  match primaryOpt with
  | none => return none
  | some primary =>
    let avail := availableAfterInit env.probe
    let secondaries := avail.filter (fun a =>
      match primary.source with
      | JVal.val s => a.name != s
      | _ => true)
    let enhanced := enhanceLoop env id opts primary secondaries primary
    return sanitizeMetadata (some enhanced)

/-! ## OMDBAdapter.searchMovies (src/unnamed/part_000, lines 136-185) -/

/-- One entry of the OMDB search response Search array. -/
structure OmdbSearchItem where
  imdbID : String
  Title : String
  Poster : String
  Year : String
deriving DecidableEq, Repr

/-- The parsed OMDB search response body. -/
structure OmdbSearchBody where
  Response : String
  Error : String
  Search : List OmdbSearchItem
deriving DecidableEq, Repr

/-- Outcome of one fetch-plus-json round trip: a thrown exception
(network error, abort by the 5 second timeout, body read failure) or an
HTTP response with its ok flag and parsed body. -/
inductive HttpOutcome (β : Type) where
  | thrown : HttpOutcome β
  | resp : Bool → β → HttpOutcome β
deriving DecidableEq, Repr

/-- BaseMetadataAdapter.formatDate: empty input gives ""; otherwise the
ISO date of new Date(date) when Date parsing succeeds (abstracted as
parseIso), and the raw input when it throws. -/
def formatDate (parseIso : String → Option String) (date : String) : String :=
  if date == "" then ""
  else
    match parseIso date with
    | some s => s
    | none => date

/-- OMDBAdapter.searchMovies over an abstract network outcome.  Both the
outer try/catch and the inner try/catch around the fetch convert any
throw into an empty result; a non-ok response and an unexpected
Response: False are thrown and caught the same way; the specific error
Movie not found! returns empty directly. -/
def omdbSearchMovies (keyConfigured : Bool) (parseIso : String → Option String)
    (net : HttpOutcome OmdbSearchBody) : Except Unit (List BasicMovieInfo) :=
  if !keyConfigured then Except.ok []
  else
    match net with
    | HttpOutcome.thrown => Except.ok []
    | HttpOutcome.resp ok body =>
      if !ok then Except.ok []
      else if body.Response == "False" then
        if body.Error == "Movie not found!" then Except.ok []
        else Except.ok []
      else Except.ok (body.Search.map (fun m =>
        { id := m.imdbID
          title := m.Title
          posterUrl := if m.Poster != "N/A" then JVal.val m.Poster else JVal.undef
          releaseDate := JVal.val (formatDate parseIso m.Year) }))

/-! ## Projection lemmas for mergeMetadata -/

theorem mergeMetadata_id (t s : MovieMetadata) :
    (mergeMetadata t s).id = t.id := by
  unfold mergeMetadata
  rfl

theorem mergeMetadata_title (t s : MovieMetadata) :
    (mergeMetadata t s).title = t.title := by
  unfold mergeMetadata
  rfl

theorem mergeMetadata_overview (t s : MovieMetadata) :
    (mergeMetadata t s).overview = fillS t.overview s.overview := by
  unfold mergeMetadata
  rfl

theorem mergeMetadata_originalTitle (t s : MovieMetadata) :
    (mergeMetadata t s).originalTitle = fillS t.originalTitle s.originalTitle := by
  unfold mergeMetadata
  rfl

theorem mergeMetadata_tagline (t s : MovieMetadata) :
    (mergeMetadata t s).tagline = fillS t.tagline s.tagline := by
  unfold mergeMetadata
  rfl

theorem mergeMetadata_posterUrl (t s : MovieMetadata) :
    (mergeMetadata t s).posterUrl = fillS t.posterUrl s.posterUrl := by
  unfold mergeMetadata
  rfl

theorem mergeMetadata_backdropUrl (t s : MovieMetadata) :
    (mergeMetadata t s).backdropUrl = fillS t.backdropUrl s.backdropUrl := by
  unfold mergeMetadata
  rfl

theorem mergeMetadata_releaseDate (t s : MovieMetadata) :
    (mergeMetadata t s).releaseDate = fillS t.releaseDate s.releaseDate := by
  unfold mergeMetadata
  rfl

theorem mergeMetadata_runtime (t s : MovieMetadata) :
    (mergeMetadata t s).runtime = fillS t.runtime s.runtime := by
  unfold mergeMetadata
  rfl

theorem mergeMetadata_rating (t s : MovieMetadata) :
    (mergeMetadata t s).rating = fillS t.rating s.rating := by
  unfold mergeMetadata
  rfl

theorem mergeMetadata_voteCount (t s : MovieMetadata) :
    (mergeMetadata t s).voteCount = fillS t.voteCount s.voteCount := by
  unfold mergeMetadata
  rfl

theorem mergeMetadata_director (t s : MovieMetadata) :
    (mergeMetadata t s).director = fillS t.director s.director := by
  unfold mergeMetadata
  rfl

theorem mergeMetadata_budget (t s : MovieMetadata) :
    (mergeMetadata t s).budget = fillS t.budget s.budget := by
  unfold mergeMetadata
  rfl

theorem mergeMetadata_revenue (t s : MovieMetadata) :
    (mergeMetadata t s).revenue = fillS t.revenue s.revenue := by
  unfold mergeMetadata
  rfl

theorem mergeMetadata_writers (t s : MovieMetadata) :
    (mergeMetadata t s).writers = fillA t.writers s.writers := by
  unfold mergeMetadata
  rfl

theorem mergeMetadata_productionCompanies (t s : MovieMetadata) :
    (mergeMetadata t s).productionCompanies =
      fillA t.productionCompanies s.productionCompanies := by
  unfold mergeMetadata
  rfl

theorem mergeMetadata_languages (t s : MovieMetadata) :
    (mergeMetadata t s).languages = fillA t.languages s.languages := by
  unfold mergeMetadata
  rfl

theorem mergeMetadata_keywords (t s : MovieMetadata) :
    (mergeMetadata t s).keywords = fillA t.keywords s.keywords := by
  unfold mergeMetadata
  rfl

theorem mergeMetadata_externalIds (t s : MovieMetadata) :
    (mergeMetadata t s).externalIds =
      mergeExtVal (fillS t.externalIds s.externalIds) s.externalIds := by
  unfold mergeMetadata
  rfl

theorem mergeMetadata_videos (t s : MovieMetadata) :
    (mergeMetadata t s).videos =
      unionSpecial videoKey (fillA t.videos s.videos) s.videos := by
  unfold mergeMetadata
  rfl

theorem mergeMetadata_cast (t s : MovieMetadata) :
    (mergeMetadata t s).cast =
      unionSpecial castKey (fillA t.cast s.cast) s.cast := by
  unfold mergeMetadata
  rfl

theorem mergeMetadata_crew (t s : MovieMetadata) :
    (mergeMetadata t s).crew =
      unionSpecial crewKey (fillA t.crew s.crew) s.crew := by
  unfold mergeMetadata
  rfl

theorem mergeMetadata_genres (t s : MovieMetadata) :
    (mergeMetadata t s).genres =
      unionSpecial genreKey (fillA t.genres s.genres) s.genres := by
  unfold mergeMetadata
  rfl

theorem mergeMetadata_similar (t s : MovieMetadata) :
    (mergeMetadata t s).similar =
      unionSpecial similarKey (fillA t.similar s.similar) s.similar := by
  unfold mergeMetadata
  rfl

theorem mergeMetadata_source (t s : MovieMetadata) :
    (mergeMetadata t s).source = mergeSourceTag (fillS t.source s.source) s.source := by
  unfold mergeMetadata
  rfl

/-! ## Algebraic helper lemmas -/

theorem fillS_idem {α : Type} (t s : JVal α) : fillS (fillS t s) s = fillS t s := by
  cases t <;> cases s <;> rfl

theorem fillA_idem {α : Type} (t s : JVal (List α)) :
    fillA (fillA t s) s = fillA t s := by
  cases t with
  | undef => cases s with
    | undef => rfl
    | null => rfl
    | val l =>
      simp only [fillA, JVal.isEmptyA]
      by_cases h : l.isEmpty <;> simp [h]
  | null => cases s with
    | undef => rfl
    | null => rfl
    | val l =>
      simp only [fillA, JVal.isEmptyA]
      by_cases h : l.isEmpty <;> simp [h]
  | val l =>
    simp only [fillA, JVal.isEmptyA]
    by_cases h : l.isEmpty
    · simp only [h, if_true]
      cases s with
      | undef => rfl
      | null => rfl
      | val m =>
        simp only [JVal.isEmptyA]
        by_cases hm : m.isEmpty <;> simp [hm]
    · simp [h]

theorem unionBy_filter_nil {α : Type} (key : α → String) (t s : List α) :
    s.filter (fun v => (unionBy key t s).all (fun w => key w != key v)) = [] := by
  rw [List.filter_eq_nil_iff]
  intro v hv
  simp only [List.all_eq_true, bne_iff_ne, ne_eq, not_forall, not_not]
  by_cases h : t.all (fun w => key w != key v)
  · refine ⟨v, ?_, rfl⟩
    unfold unionBy
    exact List.mem_append_right t (List.mem_filter.mpr ⟨hv, h⟩)
  · simp only [List.all_eq_true, bne_iff_ne, ne_eq, not_forall, not_not] at h
    obtain ⟨w, hw, hkey⟩ := h
    exact ⟨w, List.mem_append_left _ hw, hkey⟩

theorem unionBy_idem {α : Type} (key : α → String) (t s : List α) :
    unionBy key (unionBy key t s) s = unionBy key t s := by
  conv_lhs => rw [unionBy]
  rw [unionBy_filter_nil, List.append_nil]

theorem spreadExt_idem (a b : ExternalIds) :
    spreadExt (spreadExt a b) b = spreadExt a b := by
  unfold spreadExt
  cases b.imdb <;> cases b.tmdb <;> cases b.omdb <;> cases b.wikidata <;>
    cases b.movieLens <;> rfl

theorem unionBy_isEmpty_false {α : Type} (key : α → String) (uv sv : List α)
    (hsv : 0 < sv.length) : (unionBy key uv sv).isEmpty = false := by
  cases uv with
  | nil =>
    cases sv with
    | nil => simp at hsv
    | cons b m => rfl
  | cons a l => rfl

/-- Composite idempotence of one special collection handler stacked on
the generic fill step. -/
theorem unionStep_idem {α : Type} (key : α → String) (t s : JVal (List α)) :
    unionSpecial key (fillA (unionSpecial key (fillA t s) s) s) s =
      unionSpecial key (fillA t s) s := by
  cases s with
  | undef => exact fillA_idem t JVal.undef
  | null => exact fillA_idem t JVal.null
  | val sv =>
    by_cases hsv : 0 < sv.length
    · obtain ⟨uv, huv⟩ : ∃ uv, fillA t (JVal.val sv) = JVal.val uv := by
        cases t with
        | undef => exact ⟨sv, rfl⟩
        | null => exact ⟨sv, rfl⟩
        | val tv =>
          by_cases h : tv.isEmpty
          · exact ⟨sv, by simp [fillA, JVal.isEmptyA, h]⟩
          · exact ⟨tv, by simp [fillA, JVal.isEmptyA, h]⟩
      rw [huv]
      have h1 : unionSpecial key (JVal.val uv) (JVal.val sv) =
          JVal.val (unionBy key uv sv) := by
        simp [unionSpecial, hsv]
      rw [h1]
      have h2 : fillA (JVal.val (unionBy key uv sv)) (JVal.val sv) =
          JVal.val (unionBy key uv sv) := by
        simp [fillA, JVal.isEmptyA, unionBy_isEmpty_false key uv sv hsv]
      rw [h2]
      simp [unionSpecial, hsv, unionBy_idem]
    · simp only [unionSpecial, if_neg hsv]
      exact fillA_idem t (JVal.val sv)

/-- Composite idempotence of the externalIds handler stacked on the
generic fill step. -/
theorem extStep_idem (t s : JVal ExternalIds) :
    mergeExtVal (fillS (mergeExtVal (fillS t s) s) s) s = mergeExtVal (fillS t s) s := by
  cases s with
  | undef => simp only [mergeExtVal]; exact fillS_idem t JVal.undef
  | null => simp only [mergeExtVal]; exact fillS_idem t JVal.null
  | val se =>
    simp only [mergeExtVal, fillS, JVal.isEmptyS, Bool.false_eq_true, if_false,
      extOrEmpty, spreadExt_idem]

theorem fillS_val {α : Type} (v : α) (s : JVal α) : fillS (JVal.val v) s = JVal.val v := rfl

theorem fillA_val_of_ne_nil {α : Type} (l : List α) (hl : l ≠ []) (s : JVal (List α)) :
    fillA (JVal.val l) s = JVal.val l := by
  have h : l.isEmpty = false := by
    cases l with
    | nil => exact absurd rfl hl
    | cons a m => rfl
  simp [fillA, JVal.isEmptyA, h]

theorem unionSpecial_val_extends {α : Type} (key : α → String) (l : List α)
    (s : JVal (List α)) :
    ∃ l2, unionSpecial key (JVal.val l) s = JVal.val (l ++ l2) := by
  cases s with
  | undef => exact ⟨[], by simp [unionSpecial]⟩
  | null => exact ⟨[], by simp [unionSpecial]⟩
  | val sv =>
    by_cases hsv : 0 < sv.length
    · exact ⟨sv.filter (fun v => l.all (fun w => key w != key v)),
        by simp [unionSpecial, hsv, unionBy]⟩
    · exact ⟨[], by simp [unionSpecial, hsv]⟩

/-! ## Claim C1 -/

def tC1 : MovieMetadata :=
  { id := "t1", title := "Target",
    externalIds := JVal.val { imdb := some "tt0000001" } }

def sC1 : MovieMetadata :=
  { id := "s1", title := "Source",
    externalIds := JVal.val { imdb := some "tt9999999" } }

/-- C1 counterexample: externalIds are NOT merely unioned.  The handler
target.externalIds = { ...target.externalIds, ...source.externalIds }
gives the source spread the last word, so a key present in both records
takes the SOURCE value: merging a source whose imdb id differs replaces
the target imdb id, refuting "never removes or replaces an existing
key". -/
theorem c1_externalIds_overwrite_cex :
    tC1.externalIds = JVal.val { imdb := some "tt0000001" } ∧
    (mergeMetadata tC1 sC1).externalIds = JVal.val { imdb := some "tt9999999" } ∧
    (mergeMetadata tC1 sC1).externalIds ≠ tC1.externalIds := by
  decide

/-- C1 (amended): across a merge the externalIds KEY SET of the target
is monotone: every key present before stays present, a key the source
lacks keeps its target value, and a key the source has takes the source
value (so an existing key can be replaced, never removed). -/
theorem c1_externalIds_keyset_monotone_amended (t s : MovieMetadata)
    (et es : ExternalIds) (ht : t.externalIds = JVal.val et)
    (hs : s.externalIds = JVal.val es) :
    ∃ e, (mergeMetadata t s).externalIds = JVal.val e ∧
      (et.imdb.isSome → e.imdb.isSome) ∧
      (es.imdb = none → e.imdb = et.imdb) ∧ (∀ v, es.imdb = some v → e.imdb = some v) ∧
      (et.tmdb.isSome → e.tmdb.isSome) ∧
      (es.tmdb = none → e.tmdb = et.tmdb) ∧ (∀ v, es.tmdb = some v → e.tmdb = some v) ∧
      (et.omdb.isSome → e.omdb.isSome) ∧
      (es.omdb = none → e.omdb = et.omdb) ∧ (∀ v, es.omdb = some v → e.omdb = some v) ∧
      (et.wikidata.isSome → e.wikidata.isSome) ∧
      (es.wikidata = none → e.wikidata = et.wikidata) ∧
      (∀ v, es.wikidata = some v → e.wikidata = some v) ∧
      (et.movieLens.isSome → e.movieLens.isSome) ∧
      (es.movieLens = none → e.movieLens = et.movieLens) ∧
      (∀ v, es.movieLens = some v → e.movieLens = some v) := by
  have hme : (mergeMetadata t s).externalIds = JVal.val (spreadExt et es) := by
    rw [mergeMetadata_externalIds, ht, hs]
    rfl
  refine ⟨spreadExt et es, hme, ?_, ?_, ?_, ?_, ?_, ?_, ?_, ?_, ?_, ?_, ?_, ?_, ?_, ?_, ?_⟩
  · intro hsome
    cases h : es.imdb <;> simp [spreadExt, h, hsome]
  · intro h; simp [spreadExt, h]
  · intro v h; simp [spreadExt, h]
  · intro hsome
    cases h : es.tmdb <;> simp [spreadExt, h, hsome]
  · intro h; simp [spreadExt, h]
  · intro v h; simp [spreadExt, h]
  · intro hsome
    cases h : es.omdb <;> simp [spreadExt, h, hsome]
  · intro h; simp [spreadExt, h]
  · intro v h; simp [spreadExt, h]
  · intro hsome
    cases h : es.wikidata <;> simp [spreadExt, h, hsome]
  · intro h; simp [spreadExt, h]
  · intro v h; simp [spreadExt, h]
  · intro hsome
    cases h : es.movieLens <;> simp [spreadExt, h, hsome]
  · intro h; simp [spreadExt, h]
  · intro v h; simp [spreadExt, h]

/-- Witness for the amended C1 theorem at a concrete pair of records. -/
theorem c1_amended_witness :
    ∃ e, (mergeMetadata tC1 sC1).externalIds = JVal.val e ∧ e.imdb.isSome := by
  obtain ⟨e, he, hmono, -⟩ :=
    c1_externalIds_keyset_monotone_amended tC1 sC1
      { imdb := some "tt0000001" } { imdb := some "tt9999999" } rfl rfl
  exact ⟨e, he, hmono rfl⟩

/-! ## Claim C2 -/

def tC2 : MovieMetadata :=
  { id := "t2", title := "Target", genres := JVal.val ["Action"] }

def sC2 : MovieMetadata :=
  { id := "s2", title := "Source", genres := JVal.val ["Drama"] }

/-- C2 counterexample: a present non-empty target field IS changed by
the merge.  The special genres handler appends source genres whose
lowercased value is new, so a target with genres ["Action"] merged with
a source with genres ["Drama"] ends with ["Action", "Drama"], not with
its prior value. -/
theorem c2_nonempty_field_changed_cex :
    tC2.genres = JVal.val ["Action"] ∧
    (mergeMetadata tC2 sC2).genres = JVal.val ["Action", "Drama"] ∧
    (mergeMetadata tC2 sC2).genres ≠ tC2.genres := by
  decide

/-- C2 (amended): the fill-only-if-absent law holds verbatim for every
field without a special handler: a present scalar field is never
changed, and a present non-empty plain collection (writers,
productionCompanies, languages, keywords) is never changed.  The five
union collections (videos, cast, crew, genres, similar) preserve the
existing elements as a prefix but may gain appended elements, and the
source tag either stays or gains a comma-joined contributor. -/
theorem c2_fill_only_if_absent_amended (t s : MovieMetadata) :
    (∀ v, t.originalTitle = JVal.val v → (mergeMetadata t s).originalTitle = JVal.val v) ∧
    (∀ v, t.overview = JVal.val v → (mergeMetadata t s).overview = JVal.val v) ∧
    (∀ v, t.tagline = JVal.val v → (mergeMetadata t s).tagline = JVal.val v) ∧
    (∀ v, t.posterUrl = JVal.val v → (mergeMetadata t s).posterUrl = JVal.val v) ∧
    (∀ v, t.backdropUrl = JVal.val v → (mergeMetadata t s).backdropUrl = JVal.val v) ∧
    (∀ v, t.releaseDate = JVal.val v → (mergeMetadata t s).releaseDate = JVal.val v) ∧
    (∀ v, t.runtime = JVal.val v → (mergeMetadata t s).runtime = JVal.val v) ∧
    (∀ v, t.rating = JVal.val v → (mergeMetadata t s).rating = JVal.val v) ∧
    (∀ v, t.voteCount = JVal.val v → (mergeMetadata t s).voteCount = JVal.val v) ∧
    (∀ v, t.director = JVal.val v → (mergeMetadata t s).director = JVal.val v) ∧
    (∀ v, t.budget = JVal.val v → (mergeMetadata t s).budget = JVal.val v) ∧
    (∀ v, t.revenue = JVal.val v → (mergeMetadata t s).revenue = JVal.val v) ∧
    (∀ l, l ≠ [] → t.writers = JVal.val l → (mergeMetadata t s).writers = JVal.val l) ∧
    (∀ l, l ≠ [] → t.productionCompanies = JVal.val l →
      (mergeMetadata t s).productionCompanies = JVal.val l) ∧
    (∀ l, l ≠ [] → t.languages = JVal.val l → (mergeMetadata t s).languages = JVal.val l) ∧
    (∀ l, l ≠ [] → t.keywords = JVal.val l → (mergeMetadata t s).keywords = JVal.val l) ∧
    (∀ l, l ≠ [] → t.videos = JVal.val l →
      ∃ l2, (mergeMetadata t s).videos = JVal.val (l ++ l2)) ∧
    (∀ l, l ≠ [] → t.cast = JVal.val l →
      ∃ l2, (mergeMetadata t s).cast = JVal.val (l ++ l2)) ∧
    (∀ l, l ≠ [] → t.crew = JVal.val l →
      ∃ l2, (mergeMetadata t s).crew = JVal.val (l ++ l2)) ∧
    (∀ l, l ≠ [] → t.genres = JVal.val l →
      ∃ l2, (mergeMetadata t s).genres = JVal.val (l ++ l2)) ∧
    (∀ l, l ≠ [] → t.similar = JVal.val l →
      ∃ l2, (mergeMetadata t s).similar = JVal.val (l ++ l2)) ∧
    (∀ v, t.source = JVal.val v →
      (mergeMetadata t s).source = JVal.val v ∨
      (mergeMetadata t s).source = JVal.val (v ++ ", " ++ jstr s.source)) := by
  refine ⟨?_, ?_, ?_, ?_, ?_, ?_, ?_, ?_, ?_, ?_, ?_, ?_, ?_, ?_, ?_, ?_, ?_, ?_, ?_,
    ?_, ?_, ?_⟩
  · intro v h; rw [mergeMetadata_originalTitle, h, fillS_val]
  · intro v h; rw [mergeMetadata_overview, h, fillS_val]
  · intro v h; rw [mergeMetadata_tagline, h, fillS_val]
  · intro v h; rw [mergeMetadata_posterUrl, h, fillS_val]
  · intro v h; rw [mergeMetadata_backdropUrl, h, fillS_val]
  · intro v h; rw [mergeMetadata_releaseDate, h, fillS_val]
  · intro v h; rw [mergeMetadata_runtime, h, fillS_val]
  · intro v h; rw [mergeMetadata_rating, h, fillS_val]
  · intro v h; rw [mergeMetadata_voteCount, h, fillS_val]
  · intro v h; rw [mergeMetadata_director, h, fillS_val]
  · intro v h; rw [mergeMetadata_budget, h, fillS_val]
  · intro v h; rw [mergeMetadata_revenue, h, fillS_val]
  · intro l hl h; rw [mergeMetadata_writers, h, fillA_val_of_ne_nil l hl]
  · intro l hl h; rw [mergeMetadata_productionCompanies, h, fillA_val_of_ne_nil l hl]
  · intro l hl h; rw [mergeMetadata_languages, h, fillA_val_of_ne_nil l hl]
  · intro l hl h; rw [mergeMetadata_keywords, h, fillA_val_of_ne_nil l hl]
  · intro l hl h
    rw [mergeMetadata_videos, h, fillA_val_of_ne_nil l hl]
    exact unionSpecial_val_extends videoKey l s.videos
  · intro l hl h
    rw [mergeMetadata_cast, h, fillA_val_of_ne_nil l hl]
    exact unionSpecial_val_extends castKey l s.cast
  · intro l hl h
    rw [mergeMetadata_crew, h, fillA_val_of_ne_nil l hl]
    exact unionSpecial_val_extends crewKey l s.crew
  · intro l hl h
    rw [mergeMetadata_genres, h, fillA_val_of_ne_nil l hl]
    exact unionSpecial_val_extends genreKey l s.genres
  · intro l hl h
    rw [mergeMetadata_similar, h, fillA_val_of_ne_nil l hl]
    exact unionSpecial_val_extends similarKey l s.similar
  · intro v h
    rw [mergeMetadata_source, h, fillS_val]
    unfold mergeSourceTag
    by_cases he : jvalEq (JVal.val v) s.source = true
    · left; simp [he]
    · right
      simp only [Bool.not_eq_true] at he
      simp [he, jstr]

/-- Witness for the amended C2 theorem at a concrete pair of records. -/
theorem c2_amended_witness :
    ∃ l2, (mergeMetadata tC2 sC2).genres = JVal.val (["Action"] ++ l2) := by
  have h := c2_fill_only_if_absent_amended tC2 sC2
  exact h.2.2.2.2.2.2.2.2.2.2.2.2.2.2.2.2.2.2.2.1 ["Action"] (by decide) rfl

/-! ## Claim C3 -/

def tC3 : MovieMetadata :=
  { id := "t3", title := "Target", source := JVal.val "CustomDB" }

def sC3 : MovieMetadata :=
  { id := "s3", title := "Source", source := JVal.val "OMDB" }

/-- C3 counterexample: merge is NOT idempotent in the source field.
With a target tagged CustomDB and a source tagged OMDB, the first merge
produces the tag CustomDB, OMDB; the second merge compares that tag with
OMDB, finds them different, and appends again, giving
CustomDB, OMDB, OMDB, so the twice-merged record differs from the
once-merged one. -/
theorem c3_idempotence_cex :
    (mergeMetadata tC3 sC3).source = JVal.val "CustomDB, OMDB" ∧
    (mergeMetadata (mergeMetadata tC3 sC3) sC3).source =
      JVal.val "CustomDB, OMDB, OMDB" ∧
    mergeMetadata (mergeMetadata tC3 sC3) sC3 ≠ mergeMetadata tC3 sC3 := by
  decide

/-- C3 (amended): merging the same source twice agrees with merging it
once on EVERY field except source: the records are equal after erasing
the source tags.  On the source field, a second merge is the identity
exactly when the once-merged tag strictly equals the source tag;
otherwise it appends the contributor again. -/
theorem c3_idem_except_source_amended (t s : MovieMetadata) :
    ({ mergeMetadata (mergeMetadata t s) s with source := JVal.undef } =
      { mergeMetadata t s with source := JVal.undef }) ∧
    (jvalEq (mergeMetadata t s).source s.source = true →
      (mergeMetadata (mergeMetadata t s) s).source = (mergeMetadata t s).source) ∧
    (∀ v, (mergeMetadata t s).source = JVal.val v →
      jvalEq (JVal.val v) s.source = false →
      (mergeMetadata (mergeMetadata t s) s).source =
        JVal.val (v ++ ", " ++ jstr s.source)) := by
  refine ⟨?_, ?_, ?_⟩
  · simp only [MovieMetadata.mk.injEq]
    refine ⟨?_, ?_, ?_, ?_, ?_, ?_, ?_, ?_, ?_, ?_, ?_, ?_, ?_, ?_, ?_, ?_, ?_, ?_,
      ?_, ?_, ?_, ?_, ?_, ?_, trivial⟩
    · rw [mergeMetadata_id, mergeMetadata_id]
    · rw [mergeMetadata_title, mergeMetadata_title]
    · rw [mergeMetadata_originalTitle, mergeMetadata_originalTitle]
      exact fillS_idem _ _
    · rw [mergeMetadata_overview, mergeMetadata_overview]
      exact fillS_idem _ _
    · rw [mergeMetadata_tagline, mergeMetadata_tagline]
      exact fillS_idem _ _
    · rw [mergeMetadata_posterUrl, mergeMetadata_posterUrl]
      exact fillS_idem _ _
    · rw [mergeMetadata_backdropUrl, mergeMetadata_backdropUrl]
      exact fillS_idem _ _
    · rw [mergeMetadata_releaseDate, mergeMetadata_releaseDate]
      exact fillS_idem _ _
    · rw [mergeMetadata_runtime, mergeMetadata_runtime]
      exact fillS_idem _ _
    · rw [mergeMetadata_genres, mergeMetadata_genres]
      exact unionStep_idem _ _ _
    · rw [mergeMetadata_rating, mergeMetadata_rating]
      exact fillS_idem _ _
    · rw [mergeMetadata_voteCount, mergeMetadata_voteCount]
      exact fillS_idem _ _
    · rw [mergeMetadata_director, mergeMetadata_director]
      exact fillS_idem _ _
    · rw [mergeMetadata_writers, mergeMetadata_writers]
      exact fillA_idem _ _
    · rw [mergeMetadata_cast, mergeMetadata_cast]
      exact unionStep_idem _ _ _
    · rw [mergeMetadata_crew, mergeMetadata_crew]
      exact unionStep_idem _ _ _
    · rw [mergeMetadata_productionCompanies, mergeMetadata_productionCompanies]
      exact fillA_idem _ _
    · rw [mergeMetadata_budget, mergeMetadata_budget]
      exact fillS_idem _ _
    · rw [mergeMetadata_revenue, mergeMetadata_revenue]
      exact fillS_idem _ _
    · rw [mergeMetadata_languages, mergeMetadata_languages]
      exact fillA_idem _ _
    · rw [mergeMetadata_keywords, mergeMetadata_keywords]
      exact fillA_idem _ _
    · rw [mergeMetadata_videos, mergeMetadata_videos]
      exact unionStep_idem _ _ _
    · rw [mergeMetadata_similar, mergeMetadata_similar]
      exact unionStep_idem _ _ _
    · rw [mergeMetadata_externalIds, mergeMetadata_externalIds]
      exact extStep_idem _ _
  · intro he
    rw [mergeMetadata_source]
    cases hm : (mergeMetadata t s).source with
    | undef =>
      rw [hm] at he
      cases hs : s.source <;> rw [hs] at he <;> simp [jvalEq] at he <;>
        simp [fillS, JVal.isEmptyS, mergeSourceTag, jvalEq]
    | null =>
      rw [hm] at he
      cases hs : s.source <;> rw [hs] at he <;> simp [jvalEq] at he <;>
        simp [fillS, JVal.isEmptyS, mergeSourceTag, jvalEq]
    | val v =>
      simp only [fillS, JVal.isEmptyS, Bool.false_eq_true, if_false]
      rw [hm] at he
      unfold mergeSourceTag
      simp [he]
  · intro v hm he
    rw [mergeMetadata_source, hm]
    simp only [fillS, JVal.isEmptyS, Bool.false_eq_true, if_false]
    unfold mergeSourceTag
    simp [he, jstr]

/-- Witness for the amended C3 theorem at a concrete pair of records. -/
theorem c3_amended_witness :
    (mergeMetadata (mergeMetadata tC3 sC3) sC3).source =
      JVal.val ("CustomDB, OMDB" ++ ", " ++ jstr sC3.source) := by
  have h := c3_idem_except_source_amended tC3 sC3
  exact h.2.2 "CustomDB, OMDB" (by decide) (by decide)

/-! ## Claim C7 -/

theorem sanitizeNum_isVal (x : JVal JNum) :
    sanitizeNum x = JVal.undef ∧ x = JVal.undef ∨
      ∃ q, sanitizeNum x = JVal.val (JNum.num q) := by
  cases x with
  | undef => exact Or.inl ⟨rfl, rfl⟩
  | null => exact Or.inr ⟨0, rfl⟩
  | val n => cases n with
    | nan => exact Or.inr ⟨0, rfl⟩
    | num q => exact Or.inr ⟨q, rfl⟩

theorem sanitizeArr_isVal {α : Type} (x : JVal (List α)) :
    ∃ l, sanitizeArr x = JVal.val l := by
  cases x with
  | undef => exact ⟨[], rfl⟩
  | null => exact ⟨[], rfl⟩
  | val l => exact ⟨l, rfl⟩

/-- C7: sanitizeMetadata (tmpdb-adapter.ts, MetadataService unit, lines
558-597) characterized field by field: a present numeric field that is
NaN or null becomes zero, an absent numeric field stays absent, a
present number is kept; an absent (and also a null) collection field
becomes an empty sequence and a present one is kept; every field outside
the five numeric and nine collection fields is returned unchanged.  The
model is a pure function, so the input record is not mutated by
construction (the source builds the shallow copy { ...metadata } and
only assigns to the copy). -/
theorem c7_sanitize_spec (m : MovieMetadata) :
    ∃ m2, sanitizeMetadata (some m) = some m2 ∧
      (m.rating = JVal.undef → m2.rating = JVal.undef) ∧
      ((m.rating = JVal.null ∨ m.rating = JVal.val JNum.nan) →
        m2.rating = JVal.val (JNum.num 0)) ∧
      (∀ q, m.rating = JVal.val (JNum.num q) → m2.rating = JVal.val (JNum.num q)) ∧
      (m.runtime = JVal.undef → m2.runtime = JVal.undef) ∧
      ((m.runtime = JVal.null ∨ m.runtime = JVal.val JNum.nan) →
        m2.runtime = JVal.val (JNum.num 0)) ∧
      (∀ q, m.runtime = JVal.val (JNum.num q) → m2.runtime = JVal.val (JNum.num q)) ∧
      (m.voteCount = JVal.undef → m2.voteCount = JVal.undef) ∧
      ((m.voteCount = JVal.null ∨ m.voteCount = JVal.val JNum.nan) →
        m2.voteCount = JVal.val (JNum.num 0)) ∧
      (∀ q, m.voteCount = JVal.val (JNum.num q) → m2.voteCount = JVal.val (JNum.num q)) ∧
      (m.budget = JVal.undef → m2.budget = JVal.undef) ∧
      ((m.budget = JVal.null ∨ m.budget = JVal.val JNum.nan) →
        m2.budget = JVal.val (JNum.num 0)) ∧
      (∀ q, m.budget = JVal.val (JNum.num q) → m2.budget = JVal.val (JNum.num q)) ∧
      (m.revenue = JVal.undef → m2.revenue = JVal.undef) ∧
      ((m.revenue = JVal.null ∨ m.revenue = JVal.val JNum.nan) →
        m2.revenue = JVal.val (JNum.num 0)) ∧
      (∀ q, m.revenue = JVal.val (JNum.num q) → m2.revenue = JVal.val (JNum.num q)) ∧
      (m.genres = JVal.undef → m2.genres = JVal.val []) ∧
      (∀ l, m.genres = JVal.val l → m2.genres = JVal.val l) ∧
      (m.writers = JVal.undef → m2.writers = JVal.val []) ∧
      (∀ l, m.writers = JVal.val l → m2.writers = JVal.val l) ∧
      (m.cast = JVal.undef → m2.cast = JVal.val []) ∧
      (∀ l, m.cast = JVal.val l → m2.cast = JVal.val l) ∧
      (m.crew = JVal.undef → m2.crew = JVal.val []) ∧
      (∀ l, m.crew = JVal.val l → m2.crew = JVal.val l) ∧
      (m.videos = JVal.undef → m2.videos = JVal.val []) ∧
      (∀ l, m.videos = JVal.val l → m2.videos = JVal.val l) ∧
      (m.similar = JVal.undef → m2.similar = JVal.val []) ∧
      (∀ l, m.similar = JVal.val l → m2.similar = JVal.val l) ∧
      (m.languages = JVal.undef → m2.languages = JVal.val []) ∧
      (∀ l, m.languages = JVal.val l → m2.languages = JVal.val l) ∧
      (m.keywords = JVal.undef → m2.keywords = JVal.val []) ∧
      (∀ l, m.keywords = JVal.val l → m2.keywords = JVal.val l) ∧
      (m.productionCompanies = JVal.undef → m2.productionCompanies = JVal.val []) ∧
      (∀ l, m.productionCompanies = JVal.val l →
        m2.productionCompanies = JVal.val l) ∧
      m2.id = m.id ∧ m2.title = m.title ∧ m2.originalTitle = m.originalTitle ∧
      m2.overview = m.overview ∧ m2.tagline = m.tagline ∧
      m2.posterUrl = m.posterUrl ∧ m2.backdropUrl = m.backdropUrl ∧
      m2.releaseDate = m.releaseDate ∧ m2.director = m.director ∧
      m2.externalIds = m.externalIds ∧ m2.source = m.source := by
  refine ⟨sanitizeRec m, rfl, ?_, ?_, ?_, ?_, ?_, ?_, ?_, ?_, ?_, ?_, ?_, ?_, ?_, ?_,
    ?_, ?_, ?_, ?_, ?_, ?_, ?_, ?_, ?_, ?_, ?_, ?_, ?_, ?_, ?_, ?_, ?_, ?_, ?_,
    rfl, rfl, rfl, rfl, rfl, rfl, rfl, rfl, rfl, rfl, rfl⟩
  · intro h; show sanitizeNum m.rating = _; rw [h]; rfl
  · rintro (h | h) <;> (show sanitizeNum m.rating = _; rw [h]; rfl)
  · intro q h; show sanitizeNum m.rating = _; rw [h]; rfl
  · intro h; show sanitizeNum m.runtime = _; rw [h]; rfl
  · rintro (h | h) <;> (show sanitizeNum m.runtime = _; rw [h]; rfl)
  · intro q h; show sanitizeNum m.runtime = _; rw [h]; rfl
  · intro h; show sanitizeNum m.voteCount = _; rw [h]; rfl
  · rintro (h | h) <;> (show sanitizeNum m.voteCount = _; rw [h]; rfl)
  · intro q h; show sanitizeNum m.voteCount = _; rw [h]; rfl
  · intro h; show sanitizeNum m.budget = _; rw [h]; rfl
  · rintro (h | h) <;> (show sanitizeNum m.budget = _; rw [h]; rfl)
  · intro q h; show sanitizeNum m.budget = _; rw [h]; rfl
  · intro h; show sanitizeNum m.revenue = _; rw [h]; rfl
  · rintro (h | h) <;> (show sanitizeNum m.revenue = _; rw [h]; rfl)
  · intro q h; show sanitizeNum m.revenue = _; rw [h]; rfl
  · intro h; show sanitizeArr m.genres = _; rw [h]; rfl
  · intro l h; show sanitizeArr m.genres = _; rw [h]; rfl
  · intro h; show sanitizeArr m.writers = _; rw [h]; rfl
  · intro l h; show sanitizeArr m.writers = _; rw [h]; rfl
  · intro h; show sanitizeArr m.cast = _; rw [h]; rfl
  · intro l h; show sanitizeArr m.cast = _; rw [h]; rfl
  · intro h; show sanitizeArr m.crew = _; rw [h]; rfl
  · intro l h; show sanitizeArr m.crew = _; rw [h]; rfl
  · intro h; show sanitizeArr m.videos = _; rw [h]; rfl
  · intro l h; show sanitizeArr m.videos = _; rw [h]; rfl
  · intro h; show sanitizeArr m.similar = _; rw [h]; rfl
  · intro l h; show sanitizeArr m.similar = _; rw [h]; rfl
  · intro h; show sanitizeArr m.languages = _; rw [h]; rfl
  · intro l h; show sanitizeArr m.languages = _; rw [h]; rfl
  · intro h; show sanitizeArr m.keywords = _; rw [h]; rfl
  · intro l h; show sanitizeArr m.keywords = _; rw [h]; rfl
  · intro h; show sanitizeArr m.productionCompanies = _; rw [h]; rfl
  · intro l h; show sanitizeArr m.productionCompanies = _; rw [h]; rfl

/-- Witness for the C7 theorem at a concrete record: a NaN rating
becomes zero, an absent runtime stays absent, absent genres become
empty, and the title is untouched. -/
theorem c7_witness :
    ∃ m2, sanitizeMetadata
        (some { id := "w7", title := "W", rating := JVal.val JNum.nan }) = some m2 ∧
      m2.rating = JVal.val (JNum.num 0) ∧ m2.runtime = JVal.undef ∧
      m2.genres = JVal.val [] ∧ m2.title = "W" := by
  obtain ⟨m2, hm, -, hnan, -, hrt, -, -, -, -, -, -, -, -, -, -, -, hg, -, -, -, -,
    -, -, -, -, -, -, -, -, -, -, -, -, -, -, ht, -⟩ :=
    c7_sanitize_spec { id := "w7", title := "W", rating := JVal.val JNum.nan }
  exact ⟨m2, hm, hnan (Or.inr rfl), hrt rfl, hg rfl, ht⟩

/-! ## Claim C10 -/

theorem sanitizeNum_ne_null (x : JVal JNum) : sanitizeNum x ≠ JVal.null := by
  cases x with
  | undef => simp [sanitizeNum]
  | null => simp [sanitizeNum]
  | val n => cases n <;> simp [sanitizeNum]

theorem sanitizeNum_ne_nan (x : JVal JNum) : sanitizeNum x ≠ JVal.val JNum.nan := by
  cases x with
  | undef => simp [sanitizeNum]
  | null => simp [sanitizeNum]
  | val n => cases n <;> simp [sanitizeNum]

/-- C10: the plain getMovieMetadata path returns this.sanitizeMetadata
(metadata) (tmpdb-adapter.ts line 309), so whenever it yields a record,
every collection field of that record is present (an empty sequence at
worst, never undefined or null) and no numeric field is null or NaN. -/
theorem c10_getMovieMetadata_sanitized (env : Env) (id : JsId)
    (opts : MetadataFetchOptions) (r : MovieMetadata)
    (h : getMovieMetadataE env id opts = Except.ok (some r)) :
    (∃ l, r.genres = JVal.val l) ∧ (∃ l, r.writers = JVal.val l) ∧
    (∃ l, r.cast = JVal.val l) ∧ (∃ l, r.crew = JVal.val l) ∧
    (∃ l, r.videos = JVal.val l) ∧ (∃ l, r.similar = JVal.val l) ∧
    (∃ l, r.languages = JVal.val l) ∧ (∃ l, r.keywords = JVal.val l) ∧
    (∃ l, r.productionCompanies = JVal.val l) ∧
    r.rating ≠ JVal.null ∧ r.rating ≠ JVal.val JNum.nan ∧
    r.runtime ≠ JVal.null ∧ r.runtime ≠ JVal.val JNum.nan ∧
    r.voteCount ≠ JVal.null ∧ r.voteCount ≠ JVal.val JNum.nan ∧
    r.budget ≠ JVal.null ∧ r.budget ≠ JVal.val JNum.nan ∧
    r.revenue ≠ JVal.null ∧ r.revenue ≠ JVal.val JNum.nan := by
  have hr : ∃ m, r = sanitizeRec m := by
    unfold getMovieMetadataE at h
    by_cases he : (availableAfterInit env.probe).isEmpty
    · simp [he] at h
    · simp only [he, Bool.false_eq_true, if_false, Except.ok.injEq] at h
      cases hf : fetchFirst env id opts (availableAfterInit env.probe) with
      | none => rw [hf] at h; simp [sanitizeMetadata] at h
      | some m =>
        rw [hf] at h
        simp only [sanitizeMetadata, Option.some.injEq] at h
        exact ⟨m, h.symm⟩
  obtain ⟨m, rfl⟩ := hr
  refine ⟨?_, ?_, ?_, ?_, ?_, ?_, ?_, ?_, ?_, ?_, ?_, ?_, ?_, ?_, ?_, ?_, ?_, ?_, ?_⟩
  · exact sanitizeArr_isVal m.genres
  · exact sanitizeArr_isVal m.writers
  · exact sanitizeArr_isVal m.cast
  · exact sanitizeArr_isVal m.crew
  · exact sanitizeArr_isVal m.videos
  · exact sanitizeArr_isVal m.similar
  · exact sanitizeArr_isVal m.languages
  · exact sanitizeArr_isVal m.keywords
  · exact sanitizeArr_isVal m.productionCompanies
  · exact sanitizeNum_ne_null m.rating
  · exact sanitizeNum_ne_nan m.rating
  · exact sanitizeNum_ne_null m.runtime
  · exact sanitizeNum_ne_nan m.runtime
  · exact sanitizeNum_ne_null m.voteCount
  · exact sanitizeNum_ne_nan m.voteCount
  · exact sanitizeNum_ne_null m.budget
  · exact sanitizeNum_ne_nan m.budget
  · exact sanitizeNum_ne_null m.revenue
  · exact sanitizeNum_ne_nan m.revenue

/-- Environment where only the forced fallbacks are available, TMDB
misses, and CustomDB returns a bare record. -/
def envC10 : Env :=
  { probe := fun _ => Except.ok false
    fetch := fun n _ _ =>
      if n == "CustomDB" then Except.ok (some { id := "c", title := "C" })
      else Except.ok none
    search := fun _ _ => Except.ok []
    upcoming := Except.ok [] }

/-- Witness for the C10 theorem at a concrete run. -/
theorem c10_witness :
    ∃ l, (sanitizeRec { id := "c", title := "C" }).genres = JVal.val l := by
  have h := c10_getMovieMetadata_sanitized envC10 (JsId.str "x") {}
    (sanitizeRec { id := "c", title := "C" }) rfl
  exact h.1

/-! ## Claim C4 -/

/-- The availability predicate applied during the probe round: the
probe completed without throwing and reported true. -/
def passesProbe (probe : String → Except Unit Bool) (a : AdapterSpec) : Bool :=
  match probe a.name with
  | Except.ok true => true
  | _ => false

theorem availableAfterInit_eq_filter_passesProbe (probe : String → Except Unit Bool) :
    availableAfterInit probe =
      (let checked := registry.filter (passesProbe probe)
       let e1 :=
         if checked.any (fun a => a.name == "TMDB") then checked
         else checked ++ [{ name := "TMDB", priority := 1 }]
       if e1.any (fun a => a.name == "CustomDB") then e1
       else e1 ++ [{ name := "CustomDB", priority := 0 }]) := by
  unfold availableAfterInit passesProbe
  rfl

theorem registry_pairwise_priority :
    registry.Pairwise (fun a b => a.priority ≤ b.priority) := by
  decide

theorem passesProbe_false_of_not_any (probe : String → Except Unit Bool)
    (a : AdapterSpec) (ha : a ∈ registry)
    (h : (registry.filter (passesProbe probe)).any (fun b => b.name == a.name) = false) :
    passesProbe probe a = false := by
  by_contra hc
  simp only [Bool.not_eq_false] at hc
  have hmem : a ∈ registry.filter (passesProbe probe) := List.mem_filter.mpr ⟨ha, hc⟩
  have htrue : (registry.filter (passesProbe probe)).any (fun b => b.name == a.name) = true :=
    List.any_eq_true.mpr ⟨a, hmem, by simp⟩
  rw [htrue] at h
  exact absurd h (by simp)

/-- The availableSources list after a probe round: the probe-passing
adapters of the registry (in registry order, which is priority order),
followed by the forced fallbacks that did NOT pass their probe, TMDB
first, CustomDB second. -/
theorem availableAfterInit_structure (probe : String → Except Unit Bool) :
    ∃ forced, availableAfterInit probe = registry.filter (passesProbe probe) ++ forced ∧
      (registry.filter (passesProbe probe)).Pairwise (fun a b => a.priority ≤ b.priority) ∧
      ∀ a ∈ forced,
        (a = { name := "TMDB", priority := 1 } ∨ a = { name := "CustomDB", priority := 0 }) ∧
        passesProbe probe a = false := by
  have hpair : (registry.filter (passesProbe probe)).Pairwise
      (fun a b => a.priority ≤ b.priority) :=
    List.Pairwise.sublist (List.filter_sublist registry) registry_pairwise_priority
  rw [availableAfterInit_eq_filter_passesProbe]
  by_cases h1 : (registry.filter (passesProbe probe)).any (fun a => a.name == "TMDB")
  · by_cases h2 : (registry.filter (passesProbe probe)).any (fun a => a.name == "CustomDB")
    · refine ⟨[], ?_, hpair, by simp⟩
      simp [h1, h2]
    · refine ⟨[{ name := "CustomDB", priority := 0 }], ?_, hpair, ?_⟩
      · simp only [h1, if_true]
        simp only [h2, Bool.false_eq_true, if_false]
      · intro a hmem
        simp only [List.mem_singleton] at hmem
        subst hmem
        refine ⟨Or.inr rfl, ?_⟩
        apply passesProbe_false_of_not_any probe _ (by decide)
        simpa using h2
  · by_cases h2 : (registry.filter (passesProbe probe)).any (fun a => a.name == "CustomDB")
    · refine ⟨[{ name := "TMDB", priority := 1 }], ?_, hpair, ?_⟩
      · simp only [h1, Bool.false_eq_true, if_false]
        have h3 : ((registry.filter (passesProbe probe)) ++
            [({ name := "TMDB", priority := 1 } : AdapterSpec)]).any
              (fun a => a.name == "CustomDB") = true := by
          simp only [List.any_append, h2]
          simp
        simp [h3]
      · intro a hmem
        simp only [List.mem_singleton] at hmem
        subst hmem
        refine ⟨Or.inl rfl, ?_⟩
        apply passesProbe_false_of_not_any probe _ (by decide)
        simpa using h1
    · refine ⟨[{ name := "TMDB", priority := 1 }, { name := "CustomDB", priority := 0 }],
        ?_, hpair, ?_⟩
      · simp only [h1, Bool.false_eq_true, if_false]
        have h3 : ((registry.filter (passesProbe probe)) ++
            [({ name := "TMDB", priority := 1 } : AdapterSpec)]).any
              (fun a => a.name == "CustomDB") = false := by
          simp only [List.any_append, h2]
          simp
        simp only [h3, Bool.false_eq_true, if_false, List.append_assoc]
        rfl
      · intro a hmem
        simp only [List.mem_cons, List.mem_singleton, List.not_mem_nil, or_false] at hmem
        cases hmem with
        | inl h =>
          subst h
          refine ⟨Or.inl rfl, ?_⟩
          apply passesProbe_false_of_not_any probe _ (by decide)
          simpa using h1
        | inr h =>
          subst h
          refine ⟨Or.inr rfl, ?_⟩
          apply passesProbe_false_of_not_any probe _ (by decide)
          simpa using h2

theorem fetchFirst_all_miss (env : Env) (id : JsId) (opts : MetadataFetchOptions)
    (l : List AdapterSpec)
    (h : ∀ b ∈ l, ∀ x, env.fetch b.name id opts ≠ Except.ok (some x)) :
    fetchFirst env id opts l = none := by
  induction l with
  | nil => rfl
  | cons b rest ih =>
    have hb := h b (List.mem_cons_self b rest)
    have hrest := ih (fun c hc => h c (List.mem_cons_of_mem b hc))
    cases hfb : env.fetch b.name id opts with
    | ok o =>
      cases o with
      | some x => exact absurd hfb (hb x)
      | none => simp [fetchFirst, hfb, hrest]
    | error e => simp [fetchFirst, hfb, hrest]

theorem fetchFirst_append_hit (env : Env) (id : JsId) (opts : MetadataFetchOptions)
    (pre post : List AdapterSpec) (a : AdapterSpec) (r : MovieMetadata)
    (hpre : ∀ b ∈ pre, ∀ x, env.fetch b.name id opts ≠ Except.ok (some x))
    (ha : env.fetch a.name id opts = Except.ok (some r)) :
    fetchFirst env id opts (pre ++ a :: post) = some r := by
  induction pre with
  | nil => simp [fetchFirst, ha]
  | cons b rest ih =>
    have hb := hpre b (List.mem_cons_self b rest)
    have hrest := ih (fun c hc => hpre c (List.mem_cons_of_mem b hc))
    cases hfb : env.fetch b.name id opts with
    | ok o =>
      cases o with
      | some x => exact absurd hfb (hb x)
      | none => simp [fetchFirst, hfb, hrest]
    | error e => simp [fetchFirst, hfb, hrest]

def insertByPrio (a : AdapterSpec) : List AdapterSpec → List AdapterSpec
  | [] => [a]
  | b :: rest => if a.priority ≤ b.priority then a :: b :: rest else b :: insertByPrio a rest

def sortByPrio : List AdapterSpec → List AdapterSpec
  | [] => []
  | a :: rest => insertByPrio a (sortByPrio rest)

/-- The behavior claim C4 asserts, stated as its own definition for
comparison: iterate the available adapters in priority order (lower
priority number first), return the sanitized first non-absent result. -/
def getMovieMetadataClaimed (env : Env) (id : JsId) (opts : MetadataFetchOptions) :
    Option MovieMetadata :=
  sanitizeMetadata (fetchFirst env id opts (sortByPrio (availableAfterInit env.probe)))

def rOMDBc4 : MovieMetadata := { id := "tt1", title := "From OMDB" }

def rTMDBc4 : MovieMetadata := { id := "42", title := "From TMDB" }

/-- Reachable post-initialization state for the C4 counterexample:
CustomDB and OMDB pass their probes, TMDB (a force-included fallback)
fails its probe and is appended at the END of availableSources. -/
def envC4 : Env :=
  { probe := fun n => Except.ok ((n == "CustomDB") || (n == "OMDB"))
    fetch := fun n _ _ =>
      if n == "OMDB" then Except.ok (some rOMDBc4)
      else if n == "TMDB" then Except.ok (some rTMDBc4)
      else Except.ok none
    search := fun _ _ => Except.ok []
    upcoming := Except.ok [] }

/-- C4 counterexample: in the reachable state where TMDB failed its
probe and was force-included, availableSources is [CustomDB, OMDB, TMDB]
— NOT priority order (TMDB has priority 1 < OMDB priority 2).  With
CustomDB missing and both OMDB and TMDB hitting, the code returns the
OMDB record while the priority-order iteration the claim describes
would return the TMDB record. -/
theorem c4_priority_order_cex :
    (availableAfterInit envC4.probe).map (fun a => a.name) =
      ["CustomDB", "OMDB", "TMDB"] ∧
    (sortByPrio (availableAfterInit envC4.probe)).map (fun a => a.name) =
      ["CustomDB", "TMDB", "OMDB"] ∧
    getMovieMetadataE envC4 (JsId.str "q") {} =
      Except.ok (sanitizeMetadata (some rOMDBc4)) ∧
    getMovieMetadataClaimed envC4 (JsId.str "q") {} = sanitizeMetadata (some rTMDBc4) ∧
    sanitizeMetadata (some rOMDBc4) ≠ getMovieMetadataClaimed envC4 (JsId.str "q") {} := by
  refine ⟨rfl, rfl, rfl, rfl, ?_⟩
  decide

/-- C4 (amended): getMovieMetadata iterates availableSources in the
order built by initialization: the probe-passing adapters in priority
order, followed by any force-included fallback (TMDB, then CustomDB)
whose probe failed, appended at the end.  Along that order the first
non-absent result wins (returned sanitized), per-adapter exceptions do
not stop the loop, and if every available adapter misses the call
returns absent.  Only when no forced fallback failed its probe is the
iteration order exactly priority order. -/
theorem c4_first_hit_in_availability_order_amended (env : Env) (id : JsId)
    (opts : MetadataFetchOptions) :
    (∃ forced, availableAfterInit env.probe =
        registry.filter (passesProbe env.probe) ++ forced ∧
      (registry.filter (passesProbe env.probe)).Pairwise
        (fun a b => a.priority ≤ b.priority) ∧
      ∀ a ∈ forced,
        (a = { name := "TMDB", priority := 1 } ∨
          a = { name := "CustomDB", priority := 0 }) ∧
        passesProbe env.probe a = false) ∧
    (∀ pre a post r, availableAfterInit env.probe = pre ++ a :: post →
      (∀ b ∈ pre, ∀ x, env.fetch b.name id opts ≠ Except.ok (some x)) →
      env.fetch a.name id opts = Except.ok (some r) →
      getMovieMetadataE env id opts = Except.ok (sanitizeMetadata (some r))) ∧
    ((∀ b ∈ availableAfterInit env.probe, ∀ x,
        env.fetch b.name id opts ≠ Except.ok (some x)) →
      getMovieMetadataE env id opts = Except.ok none) := by
  refine ⟨availableAfterInit_structure env.probe, ?_, ?_⟩
  · intro pre a post r havail hpre ha
    unfold getMovieMetadataE
    rw [havail]
    have hne : (pre ++ a :: post).isEmpty = false := by
      cases pre <;> rfl
    simp only [hne, Bool.false_eq_true, if_false]
    rw [fetchFirst_append_hit env id opts pre post a r hpre ha]
  · intro hmiss
    unfold getMovieMetadataE
    by_cases he : (availableAfterInit env.probe).isEmpty
    · simp [he]
    · simp only [he, Bool.false_eq_true, if_false]
      rw [fetchFirst_all_miss env id opts _ hmiss]
      rfl

/-- Witness for the amended C4 theorem: the concrete degraded state of
the counterexample, where the OMDB hit after the CustomDB miss is
returned sanitized. -/
theorem c4_amended_witness :
    getMovieMetadataE envC4 (JsId.str "q") {} =
      Except.ok (sanitizeMetadata (some rOMDBc4)) := by
  have h := (c4_first_hit_in_availability_order_amended envC4 (JsId.str "q") {}).2.1
  refine h [{ name := "CustomDB", priority := 0 }] { name := "OMDB", priority := 2 }
    [{ name := "TMDB", priority := 1 }] rOMDBc4 (by decide) ?_ rfl
  intro b hb x
  simp only [List.mem_singleton] at hb
  subst hb
  simp [envC4]

/-! ## Claim C8 -/

theorem exists_tmdb_mem_availableAfterInit (probe : String → Except Unit Bool) :
    ∃ x ∈ availableAfterInit probe, x.name == "TMDB" := by
  rw [availableAfterInit_eq_filter_passesProbe]
  by_cases h1 : (registry.filter (passesProbe probe)).any (fun a => a.name == "TMDB")
  · obtain ⟨x, hx, hpx⟩ := List.any_eq_true.mp h1
    refine ⟨x, ?_, hpx⟩
    simp only [h1, if_true]
    split
    · exact hx
    · exact List.mem_append_left _ hx
  · refine ⟨{ name := "TMDB", priority := 1 }, ?_, rfl⟩
    simp only [h1, Bool.false_eq_true, if_false]
    split
    · exact List.mem_append_right _ (List.mem_singleton.mpr rfl)
    · exact List.mem_append_left _ (List.mem_append_right _ (List.mem_singleton.mpr rfl))

theorem availableAfterInit_isEmpty_false (probe : String → Except Unit Bool) :
    (availableAfterInit probe).isEmpty = false := by
  obtain ⟨x, hx, -⟩ := exists_tmdb_mem_availableAfterInit probe
  cases h : availableAfterInit probe with
  | nil => rw [h] at hx; exact absurd hx (List.not_mem_nil x)
  | cons a l => rfl

theorem find_tmdb_isSome (probe : String → Except Unit Bool) :
    ∃ a, (availableAfterInit probe).find? (fun x => x.name == "TMDB") = some a := by
  have h := List.find?_isSome.mpr (exists_tmdb_mem_availableAfterInit probe)
  cases hf : (availableAfterInit probe).find? (fun x => x.name == "TMDB") with
  | none => rw [hf] at h; simp at h
  | some a => exact ⟨a, rfl⟩

/-- C8: searchMoviesWithUpcoming first runs the ordinary search (which
is what searchMovies returns); with at least 5 results or a trimmed
query shorter than 3 characters it returns exactly those results;
otherwise it consults the TMDB upcoming list (the lookup of the adapter
named TMDB always succeeds because TMDB is force-included), keeps the
entries whose lowercased title contains the lowercased query, drops the
ones whose id already occurs in the ordinary results, and appends the
remainder after the ordinary results. -/
theorem c8_search_with_upcoming_spec (env : Env) (q : String) :
    searchMoviesE env q =
      Except.ok (searchFirst env q (availableAfterInit env.probe)) ∧
    ((5 ≤ (searchFirst env q (availableAfterInit env.probe)).length ∨
        (jsTrim q).length < 3) →
      searchMoviesWithUpcomingE env q =
        Except.ok (searchFirst env q (availableAfterInit env.probe))) ∧
    (¬ (5 ≤ (searchFirst env q (availableAfterInit env.probe)).length ∨
        (jsTrim q).length < 3) →
      ∀ ups, env.upcoming = Except.ok ups →
      searchMoviesWithUpcomingE env q = Except.ok
        (searchFirst env q (availableAfterInit env.probe) ++
          (ups.filter (fun m => strContains (lcString m.title) (lcString q))).filter
            (fun m => !(((searchFirst env q (availableAfterInit env.probe)).map
              (fun m2 => m2.id)).contains m.id)))) := by
  have hemp := availableAfterInit_isEmpty_false env.probe
  refine ⟨?_, ?_, ?_⟩
  · unfold searchMoviesE
    simp [hemp]
  · intro hcond
    unfold searchMoviesWithUpcomingE
    simp only [hemp, Bool.false_eq_true, if_false]
    rw [if_pos hcond]
  · intro hcond ups hups
    unfold searchMoviesWithUpcomingE
    simp only [hemp, Bool.false_eq_true, if_false]
    rw [if_neg hcond]
    obtain ⟨a, ha⟩ := find_tmdb_isSome env.probe
    rw [ha, hups]

/-- Concrete environment for the C8 witness: the regular search finds a
single Dune entry, the upcoming list holds a matching duplicate, a
matching new entry, and a non-matching entry. -/
def envC8 : Env :=
  { probe := fun _ => Except.ok false
    fetch := fun _ _ _ => Except.ok none
    search := fun n _ =>
      if n == "TMDB" then Except.ok [{ id := "1", title := "Dune" }]
      else Except.ok []
    upcoming := Except.ok
      [ { id := "1", title := "Dune" },
        { id := "9", title := "Dune Part Two" },
        { id := "7", title := "Other" } ] }

/-- Witness for the C8 theorem: two regular results are missing, the
query has length at least 3, and the unique matching upcoming entry is
appended. -/
theorem c8_witness :
    searchMoviesWithUpcomingE envC8 "dune" = Except.ok
      [ { id := "1", title := "Dune" }, { id := "9", title := "Dune Part Two" } ] := by
  have h := (c8_search_with_upcoming_spec envC8 "dune").2.2 (by decide)
    [ { id := "1", title := "Dune" },
      { id := "9", title := "Dune Part Two" },
      { id := "7", title := "Other" } ] rfl
  rw [h]
  exact congrArg Except.ok (by decide)

/-! ## Claim C6 -/

theorem getMovieMetadataE_ok (env : Env) (id : JsId) (opts : MetadataFetchOptions) :
    ∃ v, getMovieMetadataE env id opts = Except.ok v := by
  unfold getMovieMetadataE
  by_cases h1 : (availableAfterInit env.probe).isEmpty = true
  · rw [if_pos h1]
    exact ⟨none, rfl⟩
  · rw [if_neg h1]
    exact ⟨_, rfl⟩

/-- C6: no adapter-level or network-level error escapes as an exception.
Quantifying over EVERY pattern of adapter outcomes (each probe, fetch,
search or upcoming call may throw), all four public operations of the
Orchestrator complete normally, and OMDBAdapter.searchMovies completes
normally (with an empty result) for every network outcome, every key
configuration and every Date-parsing behavior. -/
theorem c6_no_exception_escapes (env : Env) (id : JsId) (opts : MetadataFetchOptions)
    (q : String) (keyConfigured : Bool) (parseIso : String → Option String)
    (net : HttpOutcome OmdbSearchBody) :
    (getMovieMetadataE env id opts).isOk = true ∧
    (searchMoviesE env q).isOk = true ∧
    (searchMoviesWithUpcomingE env q).isOk = true ∧
    (getEnhancedMetadataE env id opts).isOk = true ∧
    (omdbSearchMovies keyConfigured parseIso net).isOk = true := by
  refine ⟨?_, ?_, ?_, ?_, ?_⟩
  · obtain ⟨v, hv⟩ := getMovieMetadataE_ok env id opts
    rw [hv]
    rfl
  · unfold searchMoviesE
    by_cases h1 : (availableAfterInit env.probe).isEmpty = true
    · rw [if_pos h1]
      rfl
    · rw [if_neg h1]
      rfl
  · unfold searchMoviesWithUpcomingE
    by_cases h1 : (availableAfterInit env.probe).isEmpty = true
    · rw [if_pos h1]
      rfl
    · simp only [Bool.not_eq_true] at h1
      simp only [h1, Bool.false_eq_true, if_false]
      by_cases h2 : 5 ≤ (searchFirst env q (availableAfterInit env.probe)).length ∨
          (jsTrim q).length < 3
      · rw [if_pos h2]
        rfl
      · rw [if_neg h2]
        obtain ⟨a, ha⟩ := find_tmdb_isSome env.probe
        rw [ha]
        cases env.upcoming <;> rfl
  · obtain ⟨v, hv⟩ := getMovieMetadataE_ok env id opts
    unfold getEnhancedMetadataE
    rw [hv]
    show (Except.ok v >>= _).isOk = true
    cases v with
    | none => rfl
    | some p => rfl
  · unfold omdbSearchMovies
    repeat' split
    all_goals rfl

/-! ## Claim C5 -/

/-- Left fold of the comma-joined source-tag accumulation. -/
def commaJoin (acc : String) : List String → String
  | [] => acc
  | n :: rest => commaJoin (acc ++ ", " ++ n) rest

/-- The outcome of one secondary fetch in the enhancement loop: the
record when the adapter returned one, none on a null result or a thrown
exception. -/
def secondaryHit (env : Env) (id : JsId) (opts : MetadataFetchOptions)
    (primary : MovieMetadata) (a : AdapterSpec) : Option MovieMetadata :=
  match env.fetch a.name (crossRefId a primary id) opts with
  | Except.ok (some r) => some r
  | _ => none

theorem strContains_append_mid (a b c : String) :
    strContains (a ++ b ++ c) b = true := by
  unfold strContains
  apply List.any_eq_true.mpr
  refine ⟨a.data.length, List.mem_range.mpr ?_, ?_⟩
  · have : (a ++ b ++ c).data = a.data ++ (b.data ++ c.data) := by
      rw [String.data_append, String.data_append, List.append_assoc]
    rw [this, List.length_append]
    omega
  · have : (a ++ b ++ c).data = a.data ++ (b.data ++ c.data) := by
      rw [String.data_append, String.data_append, List.append_assoc]
    rw [this, List.drop_left]
    exact List.isPrefixOf_iff_prefix.mpr (List.prefix_append b.data c.data)

theorem registry_names_no_comma :
    ∀ a ∈ registry, strContains a.name ", " = false := by
  decide

theorem mem_registry_of_mem_availableAfterInit (probe : String → Except Unit Bool)
    (a : AdapterSpec) (ha : a ∈ availableAfterInit probe) : a ∈ registry := by
  obtain ⟨forced, heq, -, hforced⟩ := availableAfterInit_structure probe
  rw [heq] at ha
  rcases List.mem_append.mp ha with h | h
  · exact List.mem_of_mem_filter h
  · rcases (hforced a h).1 with rfl | rfl
    · decide
    · decide

/-- Source-tag accumulation along the enhancement loop: starting from an
accumulator tagged q, the final tag is the comma-join of q with the
names of exactly those adapters of the remaining list whose fetch
returned a record (provided each returned record is tagged with its
adapter name, no listed name contains a comma-space, and q is not the
name of any listed adapter or already contains a comma-space). -/
theorem enhanceLoop_source (env : Env) (id : JsId) (opts : MetadataFetchOptions)
    (primary : MovieMetadata) (l : List AdapterSpec) (acc : MovieMetadata) (q : String)
    (hacc : acc.source = JVal.val q)
    (hq : strContains q ", " = true ∨ ∀ a ∈ l, a.name ≠ q)
    (hnames : ∀ a ∈ l, strContains a.name ", " = false)
    (hhit : ∀ a ∈ l, ∀ r,
      env.fetch a.name (crossRefId a primary id) opts = Except.ok (some r) →
      r.source = JVal.val a.name) :
    (enhanceLoop env id opts primary l acc).source =
      JVal.val (commaJoin q ((l.filter
        (fun a => (secondaryHit env id opts primary a).isSome)).map
          (fun a => a.name))) := by
  induction l generalizing acc q with
  | nil => simpa [enhanceLoop, commaJoin] using hacc
  | cons a rest ih =>
    have hmem : a ∈ a :: rest := List.mem_cons_self a rest
    cases hf : env.fetch a.name (crossRefId a primary id) opts with
    | ok o =>
      cases o with
      | some sec =>
        have hsec : sec.source = JVal.val a.name := hhit a hmem sec hf
        have hne : (q == a.name) = false := by
          apply beq_false_of_ne
          intro hqa
          cases hq with
          | inl hcomma =>
            have h5 := hnames a hmem
            rw [hqa] at hcomma
            rw [h5] at hcomma
            exact absurd hcomma (by simp)
          | inr hall => exact hall a hmem hqa.symm
        have hmerge : (mergeMetadata acc sec).source =
            JVal.val (q ++ ", " ++ a.name) := by
          rw [mergeMetadata_source, hacc, hsec]
          unfold fillS JVal.isEmptyS mergeSourceTag
          simp only [Bool.false_eq_true, if_false]
          have : jvalEq (JVal.val q) (JVal.val a.name) = false := by
            simp [jvalEq, hne]
          rw [this]
          simp [jstr]
        have hstep : enhanceLoop env id opts primary (a :: rest) acc =
            enhanceLoop env id opts primary rest (mergeMetadata acc sec) := by
          simp [enhanceLoop, hf]
        have hsel : (secondaryHit env id opts primary a).isSome = true := by
          simp [secondaryHit, hf]
        rw [hstep, ih (mergeMetadata acc sec) (q ++ ", " ++ a.name) hmerge
          (Or.inl (strContains_append_mid q ", " a.name))
          (fun b hb => hnames b (List.mem_cons_of_mem a hb))
          (fun b hb => hhit b (List.mem_cons_of_mem a hb))]
        simp only [List.filter_cons, hsel, if_true, List.map_cons, commaJoin]
      | none =>
        have hstep : enhanceLoop env id opts primary (a :: rest) acc =
            enhanceLoop env id opts primary rest acc := by
          simp [enhanceLoop, hf]
        have hsel : (secondaryHit env id opts primary a).isSome = false := by
          simp [secondaryHit, hf]
        rw [hstep, ih acc q hacc
          (hq.imp (fun h => h) (fun hall b hb => hall b (List.mem_cons_of_mem a hb)))
          (fun b hb => hnames b (List.mem_cons_of_mem a hb))
          (fun b hb => hhit b (List.mem_cons_of_mem a hb))]
        simp only [List.filter_cons, hsel, Bool.false_eq_true, if_false]
    | error e =>
      have hstep : enhanceLoop env id opts primary (a :: rest) acc =
          enhanceLoop env id opts primary rest acc := by
        simp [enhanceLoop, hf]
      have hsel : (secondaryHit env id opts primary a).isSome = false := by
        simp [secondaryHit, hf]
      rw [hstep, ih acc q hacc
        (hq.imp (fun h => h) (fun hall b hb => hall b (List.mem_cons_of_mem a hb)))
        (fun b hb => hnames b (List.mem_cons_of_mem a hb))
        (fun b hb => hhit b (List.mem_cons_of_mem a hb))]
      simp only [List.filter_cons, hsel, Bool.false_eq_true, if_false]

theorem getEnhancedMetadataE_eq (env : Env) (id : JsId) (opts : MetadataFetchOptions)
    (primary : MovieMetadata)
    (hprim : getMovieMetadataE env id opts = Except.ok (some primary)) :
    getEnhancedMetadataE env id opts = Except.ok (sanitizeMetadata (some
      (enhanceLoop env id opts primary
        ((availableAfterInit env.probe).filter (fun a =>
          match primary.source with
          | JVal.val s => a.name != s
          | _ => true)) primary))) := by
  unfold getEnhancedMetadataE
  rw [hprim]
  rfl

/-- A fully populated primary record (every field present and
non-empty), tagged CustomDB. -/
def rPrimC5 : MovieMetadata :=
  { id := "custom-1", title := "Inception",
    originalTitle := JVal.val "Inception",
    overview := JVal.val "A thief steals secrets through dreams.",
    tagline := JVal.val "Your mind is the scene of the crime.",
    posterUrl := JVal.val "poster.jpg", backdropUrl := JVal.val "backdrop.jpg",
    releaseDate := JVal.val "2010-07-16", runtime := JVal.val (JNum.num 148),
    genres := JVal.val ["Action"], rating := JVal.val (JNum.num 8),
    voteCount := JVal.val (JNum.num 100),
    director := JVal.val "Christopher Nolan",
    writers := JVal.val ["Christopher Nolan"],
    cast := JVal.val [{ id := "a1", name := "Leonardo DiCaprio" }],
    crew := JVal.val [{ id := "c1", name := "Christopher Nolan", job := some "Director" }],
    productionCompanies := JVal.val ["WB"], budget := JVal.val (JNum.num 160),
    revenue := JVal.val (JNum.num 800), languages := JVal.val ["en"],
    keywords := JVal.val ["dream"],
    videos := JVal.val [{ id := "v1", key := "k1", site := "YouTube", type := "Trailer", name := "Trailer" }],
    similar := JVal.val [{ id := "s1", title := "Interstellar" }],
    externalIds := JVal.val { tmdb := some 27205 },
    source := JVal.val "CustomDB" }

/-- A secondary record that contributes no field at all: only the
required id and title plus its source tag. -/
def rSecC5 : MovieMetadata := { id := "27205", title := "Inception", source := JVal.val "TMDB" }

/-- Environment for C5: only CustomDB passes its probe (TMDB is force
included), CustomDB serves the fully populated primary, TMDB serves the
contribution-free secondary. -/
def envC5 : Env :=
  { probe := fun n => Except.ok (n == "CustomDB")
    fetch := fun n _ _ =>
      if n == "CustomDB" then Except.ok (some rPrimC5)
      else if n == "TMDB" then Except.ok (some rSecC5)
      else Except.ok none
    search := fun _ _ => Except.ok []
    upcoming := Except.ok [] }

/-- C5 counterexample: the source tag does NOT list only contributing
adapters.  Merging the contribution-free TMDB record into the fully
populated primary changes nothing but the source tag, yet the final
record of getEnhancedMetadata is tagged CustomDB, TMDB: an available
adapter whose fetched record added no field still appears in the
list. -/
theorem c5_source_without_contribution_cex :
    mergeMetadata rPrimC5 rSecC5 =
      { rPrimC5 with source := JVal.val "CustomDB, TMDB" } ∧
    getEnhancedMetadataE envC5 (JsId.str "custom-1") {} =
      Except.ok (some { rPrimC5 with source := JVal.val "CustomDB, TMDB" }) ∧
    JVal.val "CustomDB, TMDB" ≠ rPrimC5.source := by
  refine ⟨by decide, ?_, by decide⟩
  rfl

/-- C5 (amended): after getEnhancedMetadata the source field is the
primary tag followed by the names of exactly those secondary adapters
whose fetch RETURNED a record (contributing a new field or not), in
iteration order — assuming, as every concrete adapter does, that a
returned record is tagged with its adapter name. -/
theorem c5_source_lists_all_fetched_amended (env : Env) (id : JsId)
    (opts : MetadataFetchOptions) (primary : MovieMetadata) (p : String)
    (hprim : getMovieMetadataE env id opts = Except.ok (some primary))
    (hp : primary.source = JVal.val p)
    (hhit : ∀ a ∈ availableAfterInit env.probe, ∀ r,
      env.fetch a.name (crossRefId a primary id) opts = Except.ok (some r) →
      r.source = JVal.val a.name) :
    ∃ final, getEnhancedMetadataE env id opts = Except.ok (some final) ∧
      final.source = JVal.val (commaJoin p
        ((((availableAfterInit env.probe).filter (fun a => a.name != p)).filter
          (fun a => (secondaryHit env id opts primary a).isSome)).map
            (fun a => a.name))) := by
  rw [getEnhancedMetadataE_eq env id opts primary hprim]
  simp only [hp]
  refine ⟨_, rfl, ?_⟩
  show (sanitizeRec _).source = _
  have hsrc : ∀ m : MovieMetadata, (sanitizeRec m).source = m.source := fun m => rfl
  rw [hsrc]
  apply enhanceLoop_source
  · exact hp
  · right
    intro a ha
    have := List.of_mem_filter ha
    simpa using this
  · intro a ha
    exact registry_names_no_comma a
      (mem_registry_of_mem_availableAfterInit env.probe a (List.mem_of_mem_filter ha))
  · intro a ha
    exact hhit a (List.mem_of_mem_filter ha)

/-- Witness for the amended C5 theorem at the counterexample
environment: the single fetched secondary TMDB is appended to the
CustomDB tag. -/
theorem c5_amended_witness :
    ∃ final, getEnhancedMetadataE envC5 (JsId.str "custom-1") {} =
        Except.ok (some final) ∧
      final.source = JVal.val (commaJoin "CustomDB" ["TMDB"]) := by
  have hprim : getMovieMetadataE envC5 (JsId.str "custom-1") {} =
      Except.ok (some rPrimC5) := rfl
  have hhit : ∀ a ∈ availableAfterInit envC5.probe, ∀ r,
      envC5.fetch a.name (crossRefId a rPrimC5 (JsId.str "custom-1")) {} =
        Except.ok (some r) →
      r.source = JVal.val a.name := by
    intro a ha r hr
    have heq : availableAfterInit envC5.probe =
        [{ name := "CustomDB", priority := 0 }, { name := "TMDB", priority := 1 }] := by
      decide
    rw [heq] at ha
    simp only [List.mem_cons, List.not_mem_nil, or_false] at ha
    rcases ha with rfl | rfl
    · have hv : envC5.fetch "CustomDB"
          (crossRefId { name := "CustomDB", priority := 0 } rPrimC5 (JsId.str "custom-1")) {} =
          Except.ok (some rPrimC5) := rfl
      have h2 := hv.symm.trans hr
      obtain rfl : rPrimC5 = r := by simpa using h2
      decide
    · have hv : envC5.fetch "TMDB"
          (crossRefId { name := "TMDB", priority := 1 } rPrimC5 (JsId.str "custom-1")) {} =
          Except.ok (some rSecC5) := rfl
      have h2 := hv.symm.trans hr
      obtain rfl : rSecC5 = r := by simpa using h2
      decide
  obtain ⟨final, hf, hs⟩ := c5_source_lists_all_fetched_amended envC5
    (JsId.str "custom-1") {} rPrimC5 "CustomDB" hprim (by decide) hhit
  refine ⟨final, hf, ?_⟩
  rw [hs]
  exact congrArg JVal.val (congrArg (commaJoin "CustomDB") (by decide))

/-! ## Claim C9 -/

/-- The seeded custom-1 record of CustomDatabaseAdapter
initializeSampleData (src/lib/metadata/custom-db-adapter.ts). -/
def custom1 : MovieMetadata :=
  { id := "custom-1", title := "Inception",
    overview := JVal.val "A thief who steals corporate secrets through the use of dream-sharing technology is given the inverse task of planting an idea into the mind of a C.E.O.",
    posterUrl := JVal.val "https://image.tmdb.org/t/p/w500/9gk7adHYeDvHkCSEqAvQNLV5Uge.jpg",
    backdropUrl := JVal.val "https://image.tmdb.org/t/p/original/s3TBrRGB1iav7gFOCNx3H31MoES.jpg",
    releaseDate := JVal.val "2010-07-16", runtime := JVal.val (JNum.num 148),
    genres := JVal.val ["Action", "Science Fiction", "Adventure"],
    rating := JVal.val (JNum.num ((88 : ℚ) / 10)),
    director := JVal.val "Christopher Nolan",
    writers := JVal.val ["Christopher Nolan"],
    cast := JVal.val [
      { id := "custom-actor-1", name := "Leonardo DiCaprio", character := some "Dom Cobb" },
      { id := "custom-actor-2", name := "Joseph Gordon-Levitt", character := some "Arthur" },
      { id := "custom-actor-3", name := "Ellen Page", character := some "Ariadne" } ],
    externalIds := JVal.val { imdb := some "tt1375666", tmdb := some 27205 },
    source := JVal.val "CustomDB" }

/-- A secondary record as the OMDB adapter returns it for the
cross-referenced imdb id tt1375666: its genre list spells the third
genre Sci-Fi, which is not among the stored lowercased genres. -/
def omdbInception : MovieMetadata :=
  { id := "tt1375666", title := "Inception",
    genres := JVal.val ["Action", "Adventure", "Sci-Fi"],
    rating := JVal.val (JNum.num ((87 : ℚ) / 10)),
    languages := JVal.val ["English"],
    externalIds := JVal.val { imdb := some "tt1375666" },
    source := JVal.val "OMDB" }

/-- C9 (code bug): the genres handler of mergeMetadata pushes the new
entry Sci-Fi into the merge TARGET array.  In the source that target
array is the very array object stored in
CustomDatabaseAdapter.customMovies, because sanitizeMetadata builds only
the shallow copy { ...metadata } (line 562) and getEnhancedMetadata
builds only the shallow copy { ...primaryMetadata } (line 406), neither
of which copies the nested arrays.  So one getEnhancedMetadata call
mutates the record stored in the local-override store and the record
previously returned by getMovieMetadata, contradicting the records-are-
never-mutated-after-handoff claim, which matches the stated intent of
the code (the comment "Create a copy to avoid mutating the original"). -/
theorem c9_enhancement_appends_to_stored_array :
    custom1.genres = JVal.val ["Action", "Science Fiction", "Adventure"] ∧
    (mergeMetadata custom1 omdbInception).genres =
      JVal.val ["Action", "Science Fiction", "Adventure", "Sci-Fi"] ∧
    (mergeMetadata custom1 omdbInception).genres ≠ custom1.genres ∧
    (mergeMetadata (sanitizeRec custom1) omdbInception).genres =
      JVal.val ["Action", "Science Fiction", "Adventure", "Sci-Fi"] := by
  refine ⟨rfl, ?_, by decide, ?_⟩ <;> decide
